import Mathlib

/-!
Verification of the synchronization engine of `orbitant-calendar-sync`.

The model is a shallow embedding of:
- the `events` table and the `Event` model (`bulkUpsert`, `deleteBySourceId`,
  `deleteByExternalIds`) with the SQLite semantics of
  `INSERT ... ON CONFLICT(source_id, external_id) DO UPDATE`;
- the `sync_state` table and the `SyncState` model (`upsert`, `markPending`,
  `markSuccess`, `markError`), including the JavaScript `|| null` coalescing
  the code applies to stored fields;
- `SyncService.syncSource` / `SyncService.syncAll` with its single-flight
  flag, and the provider layer (`GoogleCalendarProvider`, `ICalRemoteProvider`,
  `ICalLocalProvider`, `MicrosoftCalendarProvider`, `createProvider`,
  `GoogleCalendarService.syncEvents`).

Machine integers are modelled as `Nat`; timestamps (`datetime('now')`,
`Date.now()`) are explicit `Nat` parameters; `Math.random()` is an explicit
`String` parameter; fallible code returns `Except`.
-/

/-! ## Event store: the `events` table and the `Event` model -/

/-- The object handed to `Event.bulkUpsert` / `Event.upsert` (a normalized
event produced by a provider's `normalizeEvent`).  `all_day` is optional
because the write site applies `data.all_day ?? 0`.  `raw_data` is the
JSON-serialized raw payload (an opaque string for the model). -/
structure EventData where
  source_id : Nat
  external_id : String
  summary : Option String
  description : Option String
  location : Option String
  start_datetime : Option String
  end_datetime : Option String
  all_day : Option Nat
  status : Option String
  recurrence : Option String
  raw_data : String
deriving Repr, DecidableEq

/-- One row of the `events` table.  The AUTOINCREMENT surrogate `id` is not
modelled; rows are identified by the `UNIQUE(source_id, external_id)` key,
which is the identity the engine's reconciliation contract uses. -/
structure EventRow where
  source_id : Nat
  external_id : String
  summary : Option String
  description : Option String
  location : Option String
  start_datetime : Option String
  end_datetime : Option String
  all_day : Nat
  status : Option String
  recurrence : Option String
  raw_data : String
  created_at : Nat
  updated_at : Nat
deriving Repr, DecidableEq

def EventRow.key (r : EventRow) : Nat × String := (r.source_id, r.external_id)

def EventData.key (d : EventData) : Nat × String := (d.source_id, d.external_id)

/-- The INSERT branch of the upsert: all columns from the VALUES tuple,
`created_at`/`updated_at` defaulting to `datetime('now')`. -/
def insertRow (now : Nat) (d : EventData) : EventRow :=
  { source_id := d.source_id, external_id := d.external_id, summary := d.summary,
    description := d.description, location := d.location,
    start_datetime := d.start_datetime, end_datetime := d.end_datetime,
    all_day := d.all_day.getD 0, status := d.status, recurrence := d.recurrence,
    raw_data := d.raw_data, created_at := now, updated_at := now }

/-- The `ON CONFLICT(source_id, external_id) DO UPDATE SET` branch: every
mutable column is taken from `excluded`, `updated_at = datetime('now')`;
the key columns and `created_at` are kept from the existing row. -/
def updateRow (now : Nat) (r : EventRow) (d : EventData) : EventRow :=
  { source_id := r.source_id, external_id := r.external_id, summary := d.summary,
    description := d.description, location := d.location,
    start_datetime := d.start_datetime, end_datetime := d.end_datetime,
    all_day := d.all_day.getD 0, status := d.status, recurrence := d.recurrence,
    raw_data := d.raw_data, created_at := r.created_at, updated_at := now }

/-- One `stmt.run(...)` of the upsert statement against the table: update in
place if a row with the same `(source_id, external_id)` exists, insert
otherwise. -/
def upsertRow (now : Nat) (t : List EventRow) (d : EventData) : List EventRow :=
  if t.any (fun r => decide (r.key = d.key)) then
    t.map (fun r => if r.key = d.key then updateRow now r d else r)
  else
    t ++ [insertRow now d]

/-- `Event.bulkUpsert`: the upsert statement run for each event in order
(inside one `db.transaction`). -/
def bulkUpsert (now : Nat) (t : List EventRow) (events : List EventData) : List EventRow :=
  events.foldl (upsertRow now) t

/-- `Event.deleteBySourceId`: `DELETE FROM events WHERE source_id = ?`. -/
def deleteBySourceId (sid : Nat) (t : List EventRow) : List EventRow :=
  t.filter (fun r => decide (r.source_id ≠ sid))

/-- `Event.deleteByExternalIds`: early-returns on an empty id list, else
`DELETE FROM events WHERE source_id = ? AND external_id IN (...)`. -/
def deleteByExternalIds (sid : Nat) (ids : List String) (t : List EventRow) : List EventRow :=
  if ids = [] then t
  else t.filter (fun r => decide (¬(r.source_id = sid ∧ r.external_id ∈ ids)))

/-- `Event.findBySourceId` restricted to what the engine uses (the row set for
one source; the `ORDER BY start_datetime` only affects presentation). -/
def eventsOf (sid : Nat) (t : List EventRow) : List EventRow :=
  t.filter (fun r => decide (r.source_id = sid))

/-- Key-based lookup in the table (the row, if any, matching
`source_id = k.1 AND external_id = k.2`). -/
def lookupKey (t : List EventRow) (k : Nat × String) : Option EventRow :=
  t.find? (fun r => decide (r.key = k))

/-- The `UNIQUE(source_id, external_id)` table invariant. -/
def KeysNodup (t : List EventRow) : Prop := (t.map EventRow.key).Nodup

/-! ## Sync Result: the transient contract returned by `Provider.sync` -/

/-- `result.newSyncState`: the cursor state carried by a Sync Result.  A field
the provider did not put in the object is `none` (JavaScript `undefined`). -/
structure NewSyncState where
  sync_token : Option String := none
  etag : Option String := none
deriving Repr, DecidableEq

/-- `Provider.sync`'s result shape.  `unchanged`/`fullRefresh` default to
`false`: an absent field is `undefined`, which is falsy at every use site
(`if (result.unchanged)`, `if (result.fullRefresh)`). -/
structure SyncResult where
  events : List EventData := []
  deleted : List String := []
  newSyncState : NewSyncState := {}
  unchanged : Bool := false
  fullRefresh : Bool := false
deriving Repr, DecidableEq

/-- The event-table writes of `SyncService.syncSource` for a result that is
not `unchanged` (lines: `if (result.fullRefresh) Event.deleteBySourceId`;
`if (result.deleted?.length > 0) Event.deleteByExternalIds`;
`if (result.events?.length > 0) Event.bulkUpsert`). -/
def applySyncResult (now sid : Nat) (r : SyncResult) (t : List EventRow) : List EventRow :=
  let t1 := if r.fullRefresh then deleteBySourceId sid t else t
  let t2 := if r.deleted.length > 0 then deleteByExternalIds sid r.deleted t1 else t1
  if r.events.length > 0 then bulkUpsert now t2 r.events else t2

/-! ## Sync Cursor Record: the `sync_state` table and the `SyncState` model -/

/-- JavaScript `x || null` on an optional string: `undefined`, `null` and the
empty string all collapse to `null`. -/
def orNull (o : Option String) : Option String :=
  match o with
  | some s => if s = "" then none else some s
  | none => none

/-- One row of the `sync_state` table (`UNIQUE(source_id)`). -/
structure SyncStateRow where
  source_id : Nat
  sync_token : Option String
  etag : Option String
  last_sync : Nat
  last_sync_status : String
  last_error : Option String
  events_count : Nat
deriving Repr, DecidableEq

/-- The `data` argument of `SyncState.upsert`; absent properties are `none`. -/
structure SyncStateData where
  sync_token : Option String := none
  etag : Option String := none
  last_sync_status : Option String := none
  last_error : Option String := none
  events_count : Option Nat := none
deriving Repr, DecidableEq

/-- `SyncState.upsert`: both the INSERT and the `DO UPDATE` branch write every
column, so the resulting row depends only on the data (and the clock).  The
JS call site applies `data.sync_token || null`, `data.etag || null`,
`data.last_sync_status || 'pending'`, `data.last_error || null`,
`data.events_count ?? 0`. -/
def SyncState_upsert (now sid : Nat) (d : SyncStateData) : SyncStateRow :=
  { source_id := sid,
    sync_token := orNull d.sync_token,
    etag := orNull d.etag,
    last_sync := now,
    last_sync_status := (orNull d.last_sync_status).getD "pending",
    last_error := orNull d.last_error,
    events_count := d.events_count.getD 0 }

/-- `SyncState.markPending`: re-reads the existing row and carries its
`sync_token`/`etag`/`events_count` forward, sets status `pending` and clears
the error. -/
def markPending (now sid : Nat) (existing : Option SyncStateRow) : SyncStateRow :=
  SyncState_upsert now sid
    { sync_token := existing.bind (·.sync_token),
      etag := existing.bind (·.etag),
      last_sync_status := some "pending",
      last_error := none,
      events_count := some ((existing.map (·.events_count)).getD 0) }

/-- `SyncState.markError`: carries `sync_token`/`etag`/`events_count` forward
from the existing row, sets status `error` and records the error message. -/
def markError (now sid : Nat) (existing : Option SyncStateRow) (errMsg : String) : SyncStateRow :=
  SyncState_upsert now sid
    { sync_token := existing.bind (·.sync_token),
      etag := existing.bind (·.etag),
      last_sync_status := some "error",
      last_error := some errMsg,
      events_count := some ((existing.map (·.events_count)).getD 0) }

/-- `SyncState.markSuccess`: stores the new cursor state, the given event
count, status `success`, and clears the error. -/
def markSuccess (now sid : Nat) (eventsCount : Nat) (tok etg : Option String) : SyncStateRow :=
  SyncState_upsert now sid
    { sync_token := tok, etag := etg,
      last_sync_status := some "success",
      last_error := none,
      events_count := some eventsCount }

/-! ## Durable store and `SyncService.syncSource` -/

/-- The `sync_state` table as a map from `source_id` to its unique row. -/
def SyncStates := Nat → Option SyncStateRow

def updateSS (m : SyncStates) (sid : Nat) (row : SyncStateRow) : SyncStates :=
  fun j => if j = sid then some row else m j

/-- The durable store as the engine sees it. -/
structure DB where
  events : List EventRow
  syncStates : SyncStates

/-- Failure injection for the three durable event-table writes of one
reconciliation.  SQLite semantics: each `stmt.run` outside a transaction
auto-commits on success and has no effect when it throws; `Event.bulkUpsert`
runs its statements inside one `db.transaction`, so a failing bulk upsert
rolls back all of its own writes — but never the statements that committed
before it. -/
inductive WriteFailure
  | noFailure
  | failDeleteAll
  | failDeleteIds
  | failUpsert
deriving Repr, DecidableEq

/-- The event-table writes of `syncSource` (non-`unchanged` path) with
failure injection.  On error the returned table is the state left behind:
everything committed before the failing statement, nothing of the failing
statement itself. -/
def runWrites (now sid : Nat) (r : SyncResult) (wf : WriteFailure) (evts : List EventRow) :
    Except (String × List EventRow) (List EventRow) :=
  if r.fullRefresh ∧ wf = .failDeleteAll then
    .error ("delete failed", evts)
  else
    let e1 := if r.fullRefresh then deleteBySourceId sid evts else evts
    if r.deleted.length > 0 ∧ wf = .failDeleteIds then
      .error ("delete failed", e1)
    else
      let e2 := if r.deleted.length > 0 then deleteByExternalIds sid r.deleted e1 else e1
      if r.events.length > 0 ∧ wf = .failUpsert then
        .error ("upsert failed", e2)
      else
        .ok (if r.events.length > 0 then bulkUpsert now e2 r.events else e2)

/-- The value `SyncService.syncSource` resolves with. -/
structure SyncSourceOk where
  unchanged : Bool
  eventsCount : Nat
  newEvents : Nat := 0
  deletedEvents : Nat := 0
deriving Repr, DecidableEq

/-- `SyncService.syncSource` for an existing enabled source.  The provider
call is external I/O, so its outcome (`providerResult`) and the write-failure
scenario (`wf`) are inputs.  Mirrors the source: mark pending, re-read the
cursor record, run the provider, short-circuit on `unchanged`, otherwise
apply the writes, count the source's rows, mark success; any thrown error is
caught, recorded via `markError`, and rethrown. -/
def syncSource (nowP nowW nowF sid : Nat) (providerResult : Except String SyncResult)
    (wf : WriteFailure) (db : DB) : DB × Except String SyncSourceOk :=
  let pre := db.syncStates sid
  let pending := markPending nowP sid pre
  let db1 : DB := { db with syncStates := updateSS db.syncStates sid pending }
  let syncState : Option SyncStateRow := some pending
  match providerResult with
  | .error msg =>
      let row := markError nowF sid syncState msg
      ({ db1 with syncStates := updateSS db1.syncStates sid row }, .error msg)
  | .ok result =>
      if result.unchanged then
        let cnt := (syncState.map (·.events_count)).getD 0
        let row := markSuccess nowF sid cnt result.newSyncState.sync_token result.newSyncState.etag
        ({ db1 with syncStates := updateSS db1.syncStates sid row },
         .ok { unchanged := true, eventsCount := cnt })
      else
        match runWrites nowW sid result wf db1.events with
        | .error (msg, evts) =>
            let row := markError nowF sid syncState msg
            ({ events := evts, syncStates := updateSS db1.syncStates sid row }, .error msg)
        | .ok evts =>
            let total := (eventsOf sid evts).length
            let row := markSuccess nowF sid total result.newSyncState.sync_token result.newSyncState.etag
            ({ events := evts, syncStates := updateSS db1.syncStates sid row },
             .ok { unchanged := false, eventsCount := total,
                   newEvents := result.events.length, deletedEvents := result.deleted.length })

/-! ## Google Calendar: service (`google-calendar.js`) and provider -/

/-- A raw Google Calendar API event, restricted to the fields
`GoogleCalendarProvider` reads.  `id` is the API's mandatory event id;
optional fields are `none` when absent. -/
structure GEvent where
  id : String
  status : Option String
  summary : Option String
  description : Option String
  location : Option String
  start_dateTime : Option String
  start_date : Option String
  end_dateTime : Option String
  end_date : Option String
  recurrence : Option String
deriving Repr, DecidableEq

/-- JavaScript `a || b` on optional strings (the empty string is falsy). -/
def jsOr (a b : Option String) : Option String :=
  match orNull a with
  | some s => some s
  | none => b

/-- Stand-in for `JSON.stringify`-style serialization of the raw payload
stored in `raw_data` (opaque to the engine; any injective encoding works). -/
def serializeGEvent (e : GEvent) : String := toString (repr e)

/-- `GoogleCalendarProvider.normalizeEvent`.  Pure: all-day iff
`start.dateTime` is absent, `status: rawEvent.status || 'confirmed'`
(a present status string passes through unmapped). -/
def normalizeGoogle (sid : Nat) (e : GEvent) : EventData :=
  let isAllDay := orNull e.start_dateTime = none
  { source_id := sid,
    external_id := e.id,
    summary := some ((orNull e.summary).getD "(Sin título)"),
    description := orNull e.description,
    location := orNull e.location,
    start_datetime := jsOr e.start_dateTime e.start_date,
    end_datetime := jsOr e.end_dateTime e.end_date,
    all_day := some (if isAllDay then 1 else 0),
    status := some ((orNull e.status).getD "confirmed"),
    recurrence := e.recurrence,
    raw_data := serializeGEvent e }

/-- One response of the Google events API for a sync attempt: a successful
listing (with its `nextSyncToken`), HTTP 410 (sync token expired/gone), or
another error. -/
inductive GRemoteResp
  | ok (events : List GEvent) (nextSyncToken : Option String)
  | gone
  | fail (msg : String)
deriving Repr

/-- What `GoogleCalendarService.syncEvents` resolves with:
`{ events, syncToken, fullSync: !syncToken }`. -/
structure GSyncOutcome where
  events : List GEvent
  syncToken : Option String
  fullSync : Bool
deriving Repr, DecidableEq

/-- `GoogleCalendarService.syncEvents(syncToken)`: list events (with the
token when given), and on `error.code === 410` retry as
`this.syncEvents(null)` — the transparent cursor-expiry fallback.  The code's
recursion is modelled with fuel (in the source, a 410 on a token-less call
would recurse forever; the API only returns 410 for expired tokens). -/
def googleSyncEvents (remote : Option String → GRemoteResp) :
    Nat → Option String → Except String GSyncOutcome
  | 0, _ => .error "sync retry limit"
  | Nat.succ fuel, token =>
    match remote token with
    | .ok evs tk => .ok { events := evs, syncToken := tk, fullSync := token.isNone }
    | .gone => googleSyncEvents remote fuel none
    | .fail m => .error m

/-- `GoogleCalendarProvider.sync(syncState)`: partition the service's events
into cancelled (reported as deletions) and live (normalized); return
`{ events, deleted, newSyncState: { sync_token } }`.  The returned object has
no `unchanged` and no `fullRefresh` property — both are `undefined` (falsy)
at the reconciler's use sites, modelled as `false`; in particular the
service-level `fullSync` flag is dropped. -/
def googleProviderSync (sid : Nat) (remote : Option String → GRemoteResp) (fuel : Nat)
    (syncState : Option SyncStateRow) : Except String SyncResult :=
  match googleSyncEvents remote fuel (syncState.bind (·.sync_token)) with
  | .error m => .error m
  | .ok result =>
      .ok { events := (result.events.filter
              (fun e => !decide (e.status = some "cancelled"))).map (normalizeGoogle sid),
            deleted := (result.events.filter
              (fun e => decide (e.status = some "cancelled"))).map (·.id),
            newSyncState := { sync_token := result.syncToken },
            unchanged := false,
            fullRefresh := false }

/-! ## iCal providers (`ICalRemoteProvider`, `ICalLocalProvider`) -/

/-- An `ICAL.Time` as the providers consume it: the `isDate` flag,
`toString()` and `toJSDate().toISOString()`. -/
structure ICalTime where
  isDate : Bool
  asString : String
  isoString : String
deriving Repr, DecidableEq

/-- An `ICAL.Event` restricted to the fields the providers read.
`statusProp` is `component.getFirstPropertyValue('status')`; `rruleProp` is
the `rrule` property's `toString()` when present. -/
structure ICalEvent where
  uid : Option String
  summary : Option String
  description : Option String
  location : Option String
  startDate : ICalTime
  endDate : Option ICalTime
  statusProp : Option String
  rruleProp : Option String
deriving Repr, DecidableEq

/-- JavaScript `s.split('T')[0]`: the prefix before the first `'T'`. -/
def splitAtT (s : String) : String := s.takeWhile (fun c => c ≠ 'T')

/-- `mapStatus` of both iCal providers: uppercase, look up in
`{CONFIRMED, TENTATIVE, CANCELLED}`, default `'confirmed'` (also for an
absent status). -/
def mapStatusICal (icalStatus : Option String) : String :=
  match icalStatus with
  | none => "confirmed"
  | some s =>
    if s.toUpper = "CONFIRMED" then "confirmed"
    else if s.toUpper = "TENTATIVE" then "tentative"
    else if s.toUpper = "CANCELLED" then "cancelled"
    else "confirmed"

/-- Stand-in for the raw-payload object the iCal providers store in
`raw_data` (opaque to the engine). -/
def serializeICalEvent (e : ICalEvent) : String := toString (repr e)

/-- `ICalRemoteProvider.normalizeEvent`.  Impure in the uid-less case:
`external_id` is `` `${this.source.id}-${Date.now()}-${Math.random()}` ``,
so the ambient clock (`nowMs`) and RNG sample (`rand`) are explicit
parameters. -/
def ICalRemote_normalizeEvent (sid nowMs : Nat) (rand : String) (e : ICalEvent) : EventData :=
  let isAllDay := e.startDate.isDate
  let startDT := if isAllDay then splitAtT e.startDate.asString else e.startDate.isoString
  let endDT : Option String :=
    match e.endDate with
    | some d => some (if isAllDay then splitAtT d.asString else d.isoString)
    | none => none
  { source_id := sid,
    external_id :=
      match orNull e.uid with
      | some u => u
      | none => s!"{sid}-{nowMs}-{rand}",
    summary := some ((orNull e.summary).getD "(Sin título)"),
    description := orNull e.description,
    location := orNull e.location,
    start_datetime := some startDT,
    end_datetime := endDT,
    all_day := some (if isAllDay then 1 else 0),
    status := some (mapStatusICal e.statusProp),
    recurrence := e.rruleProp,
    raw_data := serializeICalEvent e }

/-- `ICalLocalProvider.normalizeEvent` — the implementation in
`ICalLocalProvider.js` is textually identical to the remote provider's. -/
def ICalLocal_normalizeEvent (sid nowMs : Nat) (rand : String) (e : ICalEvent) : EventData :=
  let isAllDay := e.startDate.isDate
  let startDT := if isAllDay then splitAtT e.startDate.asString else e.startDate.isoString
  let endDT : Option String :=
    match e.endDate with
    | some d => some (if isAllDay then splitAtT d.asString else d.isoString)
    | none => none
  { source_id := sid,
    external_id :=
      match orNull e.uid with
      | some u => u
      | none => s!"{sid}-{nowMs}-{rand}",
    summary := some ((orNull e.summary).getD "(Sin título)"),
    description := orNull e.description,
    location := orNull e.location,
    start_datetime := some startDT,
    end_datetime := endDT,
    all_day := some (if isAllDay then 1 else 0),
    status := some (mapStatusICal e.statusProp),
    recurrence := e.rruleProp,
    raw_data := serializeICalEvent e }

/-- `parseICalData` of the remote provider: normalize each VEVENT; each call
to `normalizeEvent` samples the ambient clock/RNG, provided per index by
`amb`. -/
def parseICalRemote (sid : Nat) (amb : Nat → Nat × String) (evs : List ICalEvent) : List EventData :=
  evs.enum.map (fun p => ICalRemote_normalizeEvent sid (amb p.1).1 (amb p.1).2 p.2)

/-- `parseICalData` of the local provider. -/
def parseICalLocal (sid : Nat) (amb : Nat → Nat × String) (evs : List ICalEvent) : List EventData :=
  evs.enum.map (fun p => ICalLocal_normalizeEvent sid (amb p.1).1 (amb p.1).2 p.2)

/-- Outcome of one HTTP fetch of the remote feed (conditional when an ETag is
sent): 304 Not Modified, success with the feed body, or an error
(non-2xx status, network failure, timeout). -/
inductive FeedResp
  | notModified
  | ok (etg : Option String) (events : List ICalEvent)
  | fail (msg : String)
deriving Repr

/-- `ICalRemoteProvider.sync(syncState)`: with a (truthy) stored ETag do a
conditional fetch — 304 yields `unchanged: true` with the ETag carried;
a changed body yields `fullRefresh: true` with the new ETag; otherwise a
plain full fetch reporting `fullRefresh: true` (in `fetchEvents` a 304 is a
non-ok response and throws). -/
def icalRemoteSync (sid : Nat) (amb : Nat → Nat × String)
    (fetchFeed : Option String → FeedResp) (syncState : Option SyncStateRow) :
    Except String SyncResult :=
  match orNull (syncState.bind (·.etag)) with
  | some etg =>
      match fetchFeed (some etg) with
      | .notModified =>
          .ok { events := [], deleted := [], newSyncState := { etag := some etg },
                unchanged := true }
      | .ok newEtag evs =>
          .ok { events := parseICalRemote sid amb evs, deleted := [],
                newSyncState := { etag := newEtag }, fullRefresh := true }
      | .fail m => .error m
  | none =>
      match fetchFeed none with
      | .notModified => .error "HTTP 304: Not Modified"
      | .ok newEtag evs =>
          .ok { events := parseICalRemote sid amb evs, deleted := [],
                newSyncState := { etag := newEtag }, fullRefresh := true }
      | .fail m => .error m

/-- `ICalLocalProvider.sync(syncState)`: compare the file's mtime with the
stored validator — equal yields `unchanged: true`; otherwise re-read the file
and report `fullRefresh: true` with the new mtime (`this.lastMtime`). -/
def icalLocalSync (sid : Nat) (amb : Nat → Nat × String)
    (currentMtime : String) (fileEvents : List ICalEvent)
    (syncState : Option SyncStateRow) : SyncResult :=
  if syncState.bind (·.etag) = some currentMtime then
    { events := [], deleted := [], newSyncState := { etag := some currentMtime },
      unchanged := true }
  else
    { events := parseICalLocal sid amb fileEvents, deleted := [],
      newSyncState := { etag := some currentMtime }, fullRefresh := true }

/-! ## Microsoft provider (`MicrosoftCalendarProvider`) -/

/-- A raw Microsoft Graph event restricted to what `_mapStatus` reads. -/
structure MSEvent where
  id : String
  isCancelled : Bool
  showAs : Option String
deriving Repr, DecidableEq

/-- `MicrosoftCalendarProvider._mapStatus`: `isCancelled` wins; otherwise the
`showAs` enum collapses through `showAsMap`, defaulting to `'confirmed'`
(also for an absent or unknown `showAs`). -/
def msMapStatus (e : MSEvent) : String :=
  if e.isCancelled then "cancelled"
  else
    match e.showAs with
    | some s =>
        if s = "free" then "confirmed"
        else if s = "tentative" then "tentative"
        else if s = "busy" then "confirmed"
        else if s = "oof" then "confirmed"
        else if s = "workingElsewhere" then "confirmed"
        else if s = "unknown" then "confirmed"
        else "confirmed"
    | none => "confirmed"

/-! ## Provider factory and aggregator (`CalendarAggregator.js`) -/

/-- A `sources` row restricted to what the factory and orchestrator read. -/
structure Source where
  id : Nat
  name : String
  type : String
  enabled : Bool
deriving Repr, DecidableEq

/-- The provider implementations present in the repository. -/
inductive ProviderKind
  | google
  | ical_remote
  | ical_local
  | microsoft
deriving Repr, DecidableEq

/-- `createProvider(source)`: the factory's `switch (source.type)` — only
`google`, `ical_remote` and `ical_local` are constructible; everything else
throws `Unknown source type: <type>`. -/
def createProvider (src : Source) : Except String ProviderKind :=
  if src.type = "google" then .ok .google
  else if src.type = "ical_remote" then .ok .ical_remote
  else if src.type = "ical_local" then .ok .ical_local
  else .error ("Unknown source type: " ++ src.type)

/-- The `CHECK(type IN (...))` list of the `sources` table in
`schema.sql`. -/
def schemaSourceTypes : List String := ["google", "ical_remote", "ical_local", "microsoft"]

/-- The aggregator's cache key `` `${source.type}-${source.id}` ``. -/
def cacheKey (src : Source) : String := src.type ++ "-" ++ toString src.id

/-- `CalendarAggregator.getProvider(source)`: return the cached instance if
present, else create (which can throw) and cache.  (`provider.initialize()`
is awaited before caching; its source-specific I/O failures are outside the
modelled claims.) -/
def getProvider (cache : List (String × ProviderKind)) (src : Source) :
    Except String (List (String × ProviderKind) × ProviderKind) :=
  match cache.find? (fun p => decide (p.1 = cacheKey src)) with
  | some p => .ok (cache, p.2)
  | none =>
      match createProvider src with
      | .error m => .error m
      | .ok pk => .ok (cache ++ [(cacheKey src, pk)], pk)

/-- `CalendarAggregator.syncSource`: get (or create) the provider, then
delegate to its `sync`; a factory throw propagates. -/
def aggregatorSync (cache : List (String × ProviderKind)) (src : Source)
    (providerSync : ProviderKind → Except String SyncResult) : Except String SyncResult :=
  match getProvider cache src with
  | .error m => .error m
  | .ok (_, pk) => providerSync pk

/-- `SyncService.syncSource` with the aggregator step inlined: any throw from
`getProvider`/`createProvider` is caught by the same catch as a provider
failure (markError + rethrow). -/
def syncSourceVia (nowP nowW nowF : Nat) (cache : List (String × ProviderKind)) (src : Source)
    (providerSync : ProviderKind → Except String SyncResult) (wf : WriteFailure) (db : DB) :
    DB × Except String SyncSourceOk :=
  syncSource nowP nowW nowF src.id (aggregatorSync cache src providerSync) wf db

/-! ## Batch driver (`SyncService.syncAll`) -/

/-- One enabled source as enumerated by `Source.findEnabled()`. -/
structure SourceSpec where
  id : Nat
  name : String
deriving Repr, DecidableEq

/-- An entry of `results.success`. -/
structure SuccessEntry where
  sourceId : Nat
  sourceName : String
  eventsCount : Nat
  unchanged : Bool
deriving Repr, DecidableEq

/-- An entry of `results.failed`. -/
structure FailedEntry where
  sourceId : Nat
  sourceName : String
  error : String
deriving Repr, DecidableEq

/-- The batch summary `syncAll` resolves with (when not skipped). -/
structure BatchResults where
  success : List SuccessEntry
  failed : List FailedEntry
  startedAt : Nat
  completedAt : Nat
deriving Repr, DecidableEq

/-- The `for (const source of sources)` loop of `syncAll`: each source is
synced in order through `syncSource`, each iteration independently
try/caught — a success is appended to `success`, a throw is converted into a
`failed` entry and the loop continues. -/
def syncAllLoop (nowP nowW nowF : Nat) (outcome : Nat → Except String SyncResult)
    (wf : Nat → WriteFailure) : List SourceSpec → DB →
    DB × List SuccessEntry × List FailedEntry
  | [], db => (db, [], [])
  | s :: rest, db =>
      let step := syncSource nowP nowW nowF s.id (outcome s.id) (wf s.id) db
      let next := syncAllLoop nowP nowW nowF outcome wf rest step.1
      match step.2 with
      | .ok okv =>
          (next.1,
           { sourceId := s.id, sourceName := s.name,
             eventsCount := okv.eventsCount, unchanged := okv.unchanged } :: next.2.1,
           next.2.2)
      | .error m =>
          (next.1, next.2.1,
           { sourceId := s.id, sourceName := s.name, error := m } :: next.2.2)

/-- The body of a (non-skipped) `syncAll` run: the loop plus the
`startedAt`/`completedAt` timestamps of the summary. -/
def syncAllBatch (tStart tEnd nowP nowW nowF : Nat)
    (outcome : Nat → Except String SyncResult) (wf : Nat → WriteFailure)
    (srcs : List SourceSpec) (db : DB) : DB × BatchResults :=
  let out := syncAllLoop nowP nowW nowF outcome wf srcs db
  (out.1, { success := out.2.1, failed := out.2.2, startedAt := tStart, completedAt := tEnd })

/-! ## Single-flight scheduling (`this.syncing`), as a step machine

`syncAll` runs under cooperative async scheduling: the guard check and
`this.syncing = true` execute in one synchronous block, after which the batch
is suspended at each per-source I/O await.  The machine below makes the
in-flight window explicit: `invokeSyncAll` is the synchronous front of a
`syncAll` call, `stepSource` one loop iteration, `finishBatch` the normal
return, and `abortBatch` an exception escaping the body — in both of the
last two the `finally` clause clears the flag. -/

inductive BatchPhase
  | idle
  | running (remaining : List SourceSpec) (succ : List SuccessEntry) (fail : List FailedEntry)
deriving Repr, DecidableEq

/-- The in-process scheduler state: the single-flight flag, the durable
store, and the phase of any in-flight batch. -/
structure Sched where
  syncing : Bool
  db : DB
  phase : BatchPhase

inductive InvokeOutcome
  | skipped
  | started
deriving Repr, DecidableEq

/-- The synchronous front of a `syncAll()` call: observing `this.syncing`
set, return `{skipped: true}` immediately (no store access); otherwise set
the flag and begin the batch. -/
def invokeSyncAll (srcs : List SourceSpec) (s : Sched) : Sched × InvokeOutcome :=
  if s.syncing then (s, .skipped)
  else ({ s with syncing := true, phase := .running srcs [] [] }, .started)

/-- One iteration of the in-flight batch loop (no-op when no batch is
running). -/
def stepSource (nowP nowW nowF : Nat) (outcome : Nat → Except String SyncResult)
    (wf : Nat → WriteFailure) (s : Sched) : Sched :=
  match s.phase with
  | .running (src :: rest) succ fail =>
      let step := syncSource nowP nowW nowF src.id (outcome src.id) (wf src.id) s.db
      match step.2 with
      | .ok okv =>
          { s with
            db := step.1,
            phase := .running rest
              (succ ++ [{ sourceId := src.id, sourceName := src.name,
                          eventsCount := okv.eventsCount, unchanged := okv.unchanged }]) fail }
      | .error m =>
          { s with
            db := step.1,
            phase := .running rest succ
              (fail ++ [{ sourceId := src.id, sourceName := src.name, error := m }]) }
  | _ => s

/-- Normal completion of the batch: produce the summary; the `finally`
clause clears the flag. -/
def finishBatch (tStart tEnd : Nat) (s : Sched) : Sched × Option BatchResults :=
  match s.phase with
  | .running [] succ fail =>
      ({ s with syncing := false, phase := .idle },
       some { success := succ, failed := fail, startedAt := tStart, completedAt := tEnd })
  | _ => (s, none)

/-- An exception escaping the batch body: the `finally` clause still clears
the flag before the error propagates. -/
def abortBatch (s : Sched) : Sched :=
  match s.phase with
  | .running _ _ _ => { s with syncing := false, phase := .idle }
  | _ => s

/-- The scheduler states reachable from an idle engine by any interleaving of
`syncAll` invocations, batch steps, and batch completions (normal or
exceptional). -/
inductive Reachable (nowP nowW nowF : Nat) (outcome : Nat → Except String SyncResult)
    (wf : Nat → WriteFailure) : Sched → Prop
  | init (db : DB) :
      Reachable nowP nowW nowF outcome wf { syncing := false, db := db, phase := .idle }
  | invoke (srcs : List SourceSpec) (s : Sched) :
      Reachable nowP nowW nowF outcome wf s →
      Reachable nowP nowW nowF outcome wf (invokeSyncAll srcs s).1
  | step (s : Sched) :
      Reachable nowP nowW nowF outcome wf s →
      Reachable nowP nowW nowF outcome wf (stepSource nowP nowW nowF outcome wf s)
  | finish (tStart tEnd : Nat) (s : Sched) :
      Reachable nowP nowW nowF outcome wf s →
      Reachable nowP nowW nowF outcome wf (finishBatch tStart tEnd s).1
  | abort (s : Sched) :
      Reachable nowP nowW nowF outcome wf s →
      Reachable nowP nowW nowF outcome wf (abortBatch s)

/-! ## Proof-side auxiliary definitions -/

/-- The `created_at` an upsert keeps: the existing row's, or the write time on
a fresh insert. -/
def createdOf (now : Nat) (o : Option EventRow) : Nat :=
  match o with
  | some r => r.created_at
  | none => now

/-- The row stored at key `k` after one upsert of `d` over previous per-key
state `o`. -/
def finalRow (now : Nat) (k : Nat × String) (o : Option EventRow) (d : EventData) : EventRow :=
  { source_id := k.1, external_id := k.2, summary := d.summary,
    description := d.description, location := d.location,
    start_datetime := d.start_datetime, end_datetime := d.end_datetime,
    all_day := d.all_day.getD 0, status := d.status, recurrence := d.recurrence,
    raw_data := d.raw_data, created_at := createdOf now o, updated_at := now }

/-- The effect of one upsert statement on the row stored at key `k`. -/
def stepKey (now : Nat) (k : Nat × String) (o : Option EventRow) (d : EventData) : Option EventRow :=
  if d.key = k then some (finalRow now k o d) else o

/-- The keys removed by the delete stages of one reconciliation. -/
def deletedBy (sid : Nat) (r : SyncResult) (k : Nat × String) : Prop :=
  (r.fullRefresh = true ∧ k.1 = sid) ∨ (k.1 = sid ∧ k.2 ∈ r.deleted)

instance (sid : Nat) (r : SyncResult) (k : Nat × String) : Decidable (deletedBy sid r k) := by
  unfold deletedBy
  infer_instance

/-- Whether (and with which message) one `syncSource` attempt throws, as a
function of the provider outcome and the write-failure scenario alone (it
does not depend on the store's contents). -/
def stepError (o : Except String SyncResult) (w : WriteFailure) : Option String :=
  match o with
  | .error m => some m
  | .ok r =>
      if r.unchanged then none
      else if r.fullRefresh ∧ w = .failDeleteAll then some "delete failed"
      else if r.deleted.length > 0 ∧ w = .failDeleteIds then some "delete failed"
      else if r.events.length > 0 ∧ w = .failUpsert then some "upsert failed"
      else none

/-- The three canonical Event statuses of the data model. -/
def canonicalStatuses : List String := ["confirmed", "tentative", "cancelled"]

/-! ## Concrete sample data for the per-claim witnesses/counterexamples -/

def c1row : EventRow :=
  { source_id := 1, external_id := "b", summary := some "Old", description := none,
    location := none, start_datetime := some "2025-01-01T10:00:00.000Z", end_datetime := none,
    all_day := 0, status := some "confirmed", recurrence := none, raw_data := "raw-b",
    created_at := 0, updated_at := 0 }

def c1data : EventData :=
  { source_id := 1, external_id := "a", summary := some "New", description := none,
    location := none, start_datetime := some "2025-02-02T10:00:00.000Z", end_datetime := none,
    all_day := some 0, status := some "confirmed", recurrence := none, raw_data := "raw-a" }

def c1res : SyncResult := { events := [c1data], fullRefresh := true }

def c1db : DB := { events := [c1row], syncStates := fun _ => none }

def c2row : EventRow :=
  { source_id := 1, external_id := "a", summary := some "v1", description := none,
    location := none, start_datetime := some "2025-01-05T08:00:00.000Z", end_datetime := none,
    all_day := 0, status := some "confirmed", recurrence := none, raw_data := "raw-v1",
    created_at := 1, updated_at := 1 }

def c2data : EventData :=
  { source_id := 1, external_id := "a", summary := some "v2", description := some "upd",
    location := none, start_datetime := some "2025-01-06T08:00:00.000Z", end_datetime := none,
    all_day := some 0, status := some "tentative", recurrence := none, raw_data := "raw-v2" }

def c2res : SyncResult := { events := [c2data], deleted := ["b"] }

def c3pre : SyncStateRow :=
  { source_id := 7, sync_token := some "tokC1", etag := some "etgC1", last_sync := 0,
    last_sync_status := "success", last_error := none, events_count := 3 }

def c5gev : GEvent :=
  { id := "gev-1", status := some "confirmed", summary := some "Meet", description := none,
    location := none, start_dateTime := some "2025-03-01T09:00:00Z", start_date := none,
    end_dateTime := some "2025-03-01T10:00:00Z", end_date := none, recurrence := none }

/-- A Google events endpoint for which the stored token `tokC1` has expired
(HTTP 410) and a token-less first sync succeeds. -/
def c5remote : Option String → GRemoteResp :=
  fun t => if t = some "tokC1" then .gone else .ok [c5gev] (some "tok2")

def c5state : SyncStateRow :=
  { source_id := 9, sync_token := some "tokC1", etag := none, last_sync := 0,
    last_sync_status := "success", last_error := none, events_count := 1 }

def c6noUid : ICalEvent :=
  { uid := none, summary := some "Feed event", description := none, location := none,
    startDate := { isDate := false, asString := "2025-04-01T09:00:00",
                   isoString := "2025-04-01T09:00:00.000Z" },
    endDate := none, statusProp := none, rruleProp := none }

def c6withUid : ICalEvent := { c6noUid with uid := some "uid-1" }

def c7data : EventData :=
  { source_id := 2, external_id := "e2", summary := some "ok", description := none,
    location := none, start_datetime := some "2025-05-01", end_datetime := none,
    all_day := some 1, status := some "confirmed", recurrence := none, raw_data := "raw-e2" }

def c7res : SyncResult := { events := [c7data], fullRefresh := true }

/-- Source 1's provider throws; source 2's sync succeeds with one event. -/
def c7outcome : Nat → Except String SyncResult :=
  fun sid => if sid = 1 then .error "HTTP 500: Internal Server Error" else .ok c7res

def c7srcs : List SourceSpec := [{ id := 1, name := "uno" }, { id := 2, name := "dos" }]

def c7db : DB := { events := [], syncStates := fun _ => none }

def c8pre : SyncStateRow :=
  { source_id := 4, sync_token := none, etag := some "W1", last_sync := 10,
    last_sync_status := "error", last_error := some "boom", events_count := 5 }

def c8res : SyncResult := { newSyncState := { etag := some "W1" }, unchanged := true }

def c8row : EventRow :=
  { source_id := 4, external_id := "x", summary := none, description := none,
    location := none, start_datetime := some "2025-06-01", end_datetime := none,
    all_day := 0, status := some "confirmed", recurrence := none, raw_data := "raw-x",
    created_at := 0, updated_at := 0 }

def c8db : DB := { events := [c8row], syncStates := fun j => if j = 4 then some c8pre else none }

def c4db : DB := { events := [], syncStates := fun _ => none }

/-- A scheduler state with a batch in flight (one `syncAll` invoked from
idle and not yet finished). -/
def c4busy : Sched :=
  (invokeSyncAll [{ id := 1, name := "uno" }] { syncing := false, db := c4db, phase := .idle }).1

def c9gev : GEvent :=
  { id := "g9", status := some "definitivo", summary := none, description := none,
    location := none, start_dateTime := some "2025-07-01T09:00:00Z", start_date := none,
    end_dateTime := none, end_date := none, recurrence := none }

def c10src : Source := { id := 3, name := "MS", type := "microsoft", enabled := true }

def c10db : DB := { events := [], syncStates := fun _ => none }

/-! # Theorems

First the shared lemma layer: a per-key characterization of the event-table
operations, preservation of the `UNIQUE(source_id, external_id)` invariant,
and frame lemmas; then one theorem (plus witness/counterexample) per claim. -/

theorem key_updateRow (now : Nat) (r : EventRow) (d : EventData) :
    (updateRow now r d).key = r.key := rfl

theorem key_insertRow (now : Nat) (d : EventData) :
    (insertRow now d).key = d.key := rfl

theorem key_finalRow (now : Nat) (k : Nat × String) (o : Option EventRow) (d : EventData) :
    (finalRow now k o d).key = k := by
  cases k
  rfl

theorem lookupKey_append (t1 t2 : List EventRow) (k : Nat × String) :
    lookupKey (t1 ++ t2) k = (lookupKey t1 k).or (lookupKey t2 k) :=
  List.find?_append

theorem lookupKey_key {t : List EventRow} {k : Nat × String} {r : EventRow}
    (h : lookupKey t k = some r) : r.key = k := by
  have := List.find?_some h
  simpa using this

theorem lookupKey_mem {t : List EventRow} {k : Nat × String} {r : EventRow}
    (h : lookupKey t k = some r) : r ∈ t :=
  List.mem_of_find?_eq_some h

theorem row_eq_finalRow_of_key (now : Nat) (k : Nat × String) (r : EventRow) (d : EventData)
    (hr : r.key = k) : updateRow now r d = finalRow now k (some r) d := by
  obtain ⟨a, b⟩ := k
  have h1 : r.source_id = a := congrArg Prod.fst hr
  have h2 : r.external_id = b := congrArg Prod.snd hr
  simp [updateRow, finalRow, createdOf, h1, h2]

theorem insertRow_eq_finalRow_of_key (now : Nat) (k : Nat × String) (d : EventData)
    (hd : d.key = k) : insertRow now d = finalRow now k none d := by
  obtain ⟨a, b⟩ := k
  have h1 : d.source_id = a := congrArg Prod.fst hd
  have h2 : d.external_id = b := congrArg Prod.snd hd
  simp [insertRow, finalRow, createdOf, h1, h2]

theorem lookupKey_upsertRow (now : Nat) (t : List EventRow) (d : EventData) (k : Nat × String) :
    lookupKey (upsertRow now t d) k = stepKey now k (lookupKey t k) d := by
  unfold upsertRow stepKey
  by_cases hany : t.any (fun r => decide (r.key = d.key)) = true
  · rw [if_pos hany]
    have hmap : lookupKey (t.map (fun r => if r.key = d.key then updateRow now r d else r)) k
        = (lookupKey t k).map (fun r => if r.key = d.key then updateRow now r d else r) := by
      unfold lookupKey
      rw [List.find?_map]
      have hfun : ((fun r => decide (r.key = k)) ∘
            fun r : EventRow => if r.key = d.key then updateRow now r d else r)
          = (fun r : EventRow => decide (r.key = k)) := by
        funext r
        by_cases h : r.key = d.key <;> simp [h, key_updateRow]
      rw [hfun]
    rw [hmap]
    by_cases hk : d.key = k
    · rw [if_pos hk]
      obtain ⟨r0, hr0, hp0⟩ := List.any_eq_true.mp hany
      have hr0k : r0.key = d.key := of_decide_eq_true hp0
      cases hfind : lookupKey t k with
      | none =>
          exfalso
          have := List.find?_eq_none.mp hfind r0 hr0
          exact this (by simp [hr0k, hk])
      | some r1 =>
          have hr1k : r1.key = k := lookupKey_key hfind
          have hcond : r1.key = d.key := by rw [hr1k, hk]
          rw [Option.map_some', if_pos hcond]
          exact congrArg some (row_eq_finalRow_of_key now k r1 d hr1k)
    · rw [if_neg hk]
      cases hfind : lookupKey t k with
      | none => rfl
      | some r1 =>
          have hr1k : r1.key = k := lookupKey_key hfind
          have hcond : ¬ r1.key = d.key := by
            rw [hr1k]
            exact fun h => hk h.symm
          rw [Option.map_some', if_neg hcond]
  · rw [if_neg hany, lookupKey_append]
    by_cases hk : d.key = k
    · have hnone : lookupKey t k = none := by
        cases hfind : lookupKey t k with
        | none => rfl
        | some r1 =>
            exfalso
            apply hany
            refine List.any_eq_true.mpr ⟨r1, lookupKey_mem hfind, ?_⟩
            have : r1.key = k := lookupKey_key hfind
            simp [this, hk]
      have hsingle : lookupKey [insertRow now d] k = some (insertRow now d) := by
        unfold lookupKey
        simp [List.find?, key_insertRow, hk]
      rw [hnone, hsingle, if_pos hk]
      simp only [Option.or]
      exact congrArg some (insertRow_eq_finalRow_of_key now k d hk)
    · have hsingle : lookupKey [insertRow now d] k = none := by
        unfold lookupKey
        simp [List.find?, key_insertRow, hk]
      rw [hsingle, if_neg hk, Option.or_none]

theorem lookupKey_bulkUpsert (now : Nat) (ds : List EventData) (t : List EventRow)
    (k : Nat × String) :
    lookupKey (bulkUpsert now t ds) k = ds.foldl (stepKey now k) (lookupKey t k) := by
  induction ds generalizing t with
  | nil => rfl
  | cons d ds ih =>
      show lookupKey (bulkUpsert now (upsertRow now t d) ds) k = _
      rw [ih, lookupKey_upsertRow]
      rfl

theorem lookupKey_filter_none (p : EventRow → Bool) (t : List EventRow) (k : Nat × String)
    (h : ∀ r : EventRow, r.key = k → p r = false) : lookupKey (t.filter p) k = none := by
  induction t with
  | nil => rfl
  | cons x t ih =>
      by_cases hx : p x
      · rw [List.filter_cons_of_pos hx]
        unfold lookupKey
        rw [List.find?_cons]
        have hxk : decide (x.key = k) = false := by
          by_cases hk : x.key = k
          · exact absurd hx (by simp [h x hk])
          · simp [hk]
        rw [hxk]
        exact ih
      · rw [List.filter_cons_of_neg hx]
        exact ih

theorem lookupKey_filter_same (p : EventRow → Bool) (t : List EventRow) (k : Nat × String)
    (h : ∀ r : EventRow, r.key = k → p r = true) :
    lookupKey (t.filter p) k = lookupKey t k := by
  induction t with
  | nil => rfl
  | cons x t ih =>
      by_cases hk : x.key = k
      · rw [List.filter_cons_of_pos (h x hk)]
        unfold lookupKey
        rw [List.find?_cons, List.find?_cons]
        have hdk : decide (x.key = k) = true := by simp [hk]
        rw [hdk]
      · by_cases hx : p x
        · rw [List.filter_cons_of_pos hx]
          unfold lookupKey
          rw [List.find?_cons, List.find?_cons]
          have : decide (x.key = k) = false := by simp [hk]
          rw [this]
          exact ih
        · rw [List.filter_cons_of_neg hx]
          unfold lookupKey
          rw [List.find?_cons]
          have : decide (x.key = k) = false := by simp [hk]
          rw [this]
          exact ih

theorem lookupKey_deleteBySourceId (sid : Nat) (t : List EventRow) (k : Nat × String) :
    lookupKey (deleteBySourceId sid t) k = if k.1 = sid then none else lookupKey t k := by
  unfold deleteBySourceId
  by_cases hks : k.1 = sid
  · rw [if_pos hks]
    apply lookupKey_filter_none
    intro r hrk
    have : r.source_id = k.1 := congrArg Prod.fst hrk
    simp [this, hks]
  · rw [if_neg hks]
    apply lookupKey_filter_same
    intro r hrk
    have : r.source_id = k.1 := congrArg Prod.fst hrk
    simp [this, hks]

theorem lookupKey_deleteByExternalIds (sid : Nat) (ids : List String) (t : List EventRow)
    (k : Nat × String) :
    lookupKey (deleteByExternalIds sid ids t) k
      = if k.1 = sid ∧ k.2 ∈ ids then none else lookupKey t k := by
  unfold deleteByExternalIds
  by_cases hids : ids = []
  · subst hids
    simp
  · rw [if_neg hids]
    by_cases hk : k.1 = sid ∧ k.2 ∈ ids
    · rw [if_pos hk]
      apply lookupKey_filter_none
      intro r hrk
      have h1 : r.source_id = k.1 := congrArg Prod.fst hrk
      have h2 : r.external_id = k.2 := congrArg Prod.snd hrk
      simp [h1, h2, hk.1, hk.2]
    · rw [if_neg hk]
      apply lookupKey_filter_same
      intro r hrk
      have h1 : r.source_id = k.1 := congrArg Prod.fst hrk
      have h2 : r.external_id = k.2 := congrArg Prod.snd hrk
      simp only [h1, h2, decide_eq_true_eq]
      exact fun hc => hk hc


theorem lookupKey_applySyncResult (now sid : Nat) (r : SyncResult) (t : List EventRow)
    (k : Nat × String) :
    lookupKey (applySyncResult now sid r t) k
      = r.events.foldl (stepKey now k) (if deletedBy sid r k then none else lookupKey t k) := by
  have hup : ∀ t2 : List EventRow,
      lookupKey (if r.events.length > 0 then bulkUpsert now t2 r.events else t2) k
        = r.events.foldl (stepKey now k) (lookupKey t2 k) := by
    intro t2
    by_cases he : r.events.length > 0
    · rw [if_pos he, lookupKey_bulkUpsert]
    · rw [if_neg he]
      have : r.events = [] := List.length_eq_zero.mp (Nat.eq_zero_of_not_pos he)
      rw [this]
      rfl
  have hdel2 : ∀ t1 : List EventRow,
      lookupKey (if r.deleted.length > 0 then deleteByExternalIds sid r.deleted t1 else t1) k
        = if k.1 = sid ∧ k.2 ∈ r.deleted then none else lookupKey t1 k := by
    intro t1
    by_cases hd : r.deleted.length > 0
    · rw [if_pos hd, lookupKey_deleteByExternalIds]
    · rw [if_neg hd]
      have hnil : r.deleted = [] := List.length_eq_zero.mp (Nat.eq_zero_of_not_pos hd)
      rw [if_neg]
      intro hc
      rw [hnil] at hc
      exact absurd hc.2 (List.not_mem_nil _)
  have hdel1 :
      lookupKey (if r.fullRefresh then deleteBySourceId sid t else t) k
        = if r.fullRefresh = true ∧ k.1 = sid then none else lookupKey t k := by
    by_cases hfr : r.fullRefresh = true
    · rw [if_pos hfr, lookupKey_deleteBySourceId]
      by_cases hks : k.1 = sid
      · rw [if_pos hks, if_pos ⟨hfr, hks⟩]
      · rw [if_neg hks, if_neg (fun hc => hks hc.2)]
    · rw [if_neg hfr, if_neg (fun hc => hfr hc.1)]
  rw [show applySyncResult now sid r t
      = (if r.events.length > 0 then
          bulkUpsert now
            (if r.deleted.length > 0 then
              deleteByExternalIds sid r.deleted (if r.fullRefresh then deleteBySourceId sid t else t)
            else if r.fullRefresh then deleteBySourceId sid t else t) r.events
        else
          (if r.deleted.length > 0 then
            deleteByExternalIds sid r.deleted (if r.fullRefresh then deleteBySourceId sid t else t)
          else if r.fullRefresh then deleteBySourceId sid t else t)) from rfl]
  rw [hup, hdel2, hdel1]
  congr 1
  by_cases h2 : k.1 = sid ∧ k.2 ∈ r.deleted
  · rw [if_pos h2, if_pos (show deletedBy sid r k from Or.inr h2)]
  · rw [if_neg h2]
    by_cases h1 : r.fullRefresh = true ∧ k.1 = sid
    · rw [if_pos h1, if_pos (show deletedBy sid r k from Or.inl h1)]
    · rw [if_neg h1, if_neg]
      intro hc
      rcases hc with hc | hc
      exacts [h1 hc, h2 hc]

theorem finalRow_created_stable (now : Nat) (k : Nat × String) (o : Option EventRow)
    (d dl : EventData) :
    finalRow now k (some (finalRow now k o d)) dl = finalRow now k o dl := by
  unfold finalRow createdOf
  cases o <;> rfl

theorem foldl_stepKey_char (now : Nat) (k : Nat × String) (ds : List EventData)
    (o : Option EventRow) (ho : ∀ r, o = some r → r.key = k) :
    ds.foldl (stepKey now k) o
      = match ds.reverse.find? (fun d => decide (d.key = k)) with
        | none => o
        | some dl => some (finalRow now k o dl) := by
  induction ds generalizing o with
  | nil => rfl
  | cons d ds ih =>
      rw [List.foldl_cons, List.reverse_cons, List.find?_append]
      by_cases hd : d.key = k
      · have hstep : stepKey now k o d = some (finalRow now k o d) := by
          unfold stepKey
          rw [if_pos hd]
        have ho' : ∀ r, (some (finalRow now k o d) : Option EventRow) = some r → r.key = k := by
          intro r hr
          have := Option.some.inj hr
          rw [← this]
          exact key_finalRow now k o d
        rw [hstep, ih _ ho']
        have hone : List.find? (fun d => decide (d.key = k)) [d] = some d := by
          simp [List.find?, hd]
        cases hrev : ds.reverse.find? (fun d => decide (d.key = k)) with
        | none =>
            rw [hone]
            simp only [Option.or]
        | some dl =>
            rw [hone]
            simp only [Option.or]
            exact congrArg some (finalRow_created_stable now k o d dl)
      · have hstep : stepKey now k o d = o := by
          unfold stepKey
          rw [if_neg hd]
        have hone : List.find? (fun d => decide (d.key = k)) [d] = none := by
          simp [List.find?, hd]
        rw [hstep, ih _ ho, hone, Option.or_none]

theorem foldl_stepKey_idem (now : Nat) (k : Nat × String) (ds : List EventData)
    (o : Option EventRow) (ho : ∀ r, o = some r → r.key = k) :
    ds.foldl (stepKey now k) (ds.foldl (stepKey now k) o) = ds.foldl (stepKey now k) o := by
  have h1 := foldl_stepKey_char now k ds o ho
  cases hrev : ds.reverse.find? (fun d => decide (d.key = k)) with
  | none =>
      rw [hrev] at h1
      rw [h1]
      exact h1
  | some dl =>
      rw [hrev] at h1
      have ho' : ∀ r, (some (finalRow now k o dl) : Option EventRow) = some r → r.key = k := by
        intro r hr
        have := Option.some.inj hr
        rw [← this]
        exact key_finalRow now k o dl
      have h2 := foldl_stepKey_char now k ds (some (finalRow now k o dl)) ho'
      rw [hrev] at h2
      rw [h1, h2]
      exact congrArg some (finalRow_created_stable now k o dl dl)

theorem keys_filter (p : EventRow → Bool) (t : List EventRow) (h : KeysNodup t) :
    KeysNodup (t.filter p) :=
  List.Nodup.sublist (List.Sublist.map _ (List.filter_sublist t)) h

theorem keys_upsertRow (now : Nat) (t : List EventRow) (d : EventData) (h : KeysNodup t) :
    KeysNodup (upsertRow now t d) := by
  unfold upsertRow
  by_cases hany : t.any (fun r => decide (r.key = d.key)) = true
  · rw [if_pos hany]
    unfold KeysNodup
    have hmap : (t.map (fun r => if r.key = d.key then updateRow now r d else r)).map EventRow.key
        = t.map EventRow.key := by
      rw [List.map_map]
      apply List.map_congr_left
      intro r _
      by_cases hr : r.key = d.key <;> simp [Function.comp, hr, key_updateRow]
    rw [hmap]
    exact h
  · rw [if_neg hany]
    unfold KeysNodup
    rw [List.map_append]
    refine List.Nodup.append h (by simp) ?_
    intro a ha hb
    simp only [List.map_cons, List.map_nil, List.mem_singleton] at hb
    obtain ⟨r, hr, hrk⟩ := List.mem_map.mp ha
    apply hany
    refine List.any_eq_true.mpr ⟨r, hr, ?_⟩
    have : r.key = d.key := by
      rw [hrk, hb]
      rfl
    simp [this]

theorem keys_bulkUpsert (now : Nat) (ds : List EventData) (t : List EventRow) (h : KeysNodup t) :
    KeysNodup (bulkUpsert now t ds) := by
  induction ds generalizing t with
  | nil => exact h
  | cons d ds ih => exact ih _ (keys_upsertRow now t d h)

theorem keys_applySyncResult (now sid : Nat) (r : SyncResult) (t : List EventRow)
    (h : KeysNodup t) : KeysNodup (applySyncResult now sid r t) := by
  unfold applySyncResult deleteBySourceId deleteByExternalIds
  have h1 : KeysNodup (if r.fullRefresh then
      t.filter (fun r => decide (r.source_id ≠ sid)) else t) := by
    by_cases hfr : r.fullRefresh = true
    · rw [if_pos hfr]
      exact keys_filter _ t h
    · rw [if_neg hfr]
      exact h
  have h2 : KeysNodup (if r.deleted.length > 0 then
      (if r.deleted = [] then (if r.fullRefresh then
          t.filter (fun r => decide (r.source_id ≠ sid)) else t)
       else (if r.fullRefresh then
          t.filter (fun r => decide (r.source_id ≠ sid)) else t).filter
            (fun row => decide (¬(row.source_id = sid ∧ row.external_id ∈ r.deleted))))
      else (if r.fullRefresh then t.filter (fun r => decide (r.source_id ≠ sid)) else t)) := by
    by_cases hd : r.deleted.length > 0
    · rw [if_pos hd]
      by_cases hnil : r.deleted = []
      · rw [if_pos hnil]
        exact h1
      · rw [if_neg hnil]
        exact keys_filter _ _ h1
    · rw [if_neg hd]
      exact h1
  by_cases he : r.events.length > 0
  · rw [if_pos he]
    exact keys_bulkUpsert now r.events _ h2
  · rw [if_neg he]
    exact h2

theorem mem_iff_lookupKey : ∀ (t : List EventRow), KeysNodup t →
    ∀ r : EventRow, (r ∈ t ↔ lookupKey t r.key = some r) := by
  intro t
  induction t with
  | nil =>
      intro _ r
      simp [lookupKey, List.find?]
  | cons x t ih =>
      intro h r
      have hx : x.key ∉ t.map EventRow.key := (List.nodup_cons.mp h).1
      have ht : KeysNodup t := (List.nodup_cons.mp h).2
      unfold lookupKey
      rw [List.find?_cons]
      by_cases hxk : x.key = r.key
      · have hdx : decide (x.key = r.key) = true := by simp [hxk]
        rw [hdx]
        constructor
        · intro hmem
          rcases List.mem_cons.mp hmem with hrx | hrt
          · rw [hrx]
          · exfalso
            apply hx
            rw [hxk]
            exact List.mem_map.mpr ⟨r, hrt, rfl⟩
        · intro hfind
          have : x = r := Option.some.inj hfind
          rw [← this]
          exact List.mem_cons_self x t
      · have hdx : decide (x.key = r.key) = false := by simp [hxk]
        rw [hdx]
        constructor
        · intro hmem
          rcases List.mem_cons.mp hmem with hrx | hrt
          · exact absurd (by rw [hrx] : x.key = r.key) hxk
          · exact (ih ht r).mp hrt
        · intro hfind
          exact List.mem_cons_of_mem x ((ih ht r).mpr hfind)

theorem lookupKey_applySyncResult_idem (now sid : Nat) (r : SyncResult) (t : List EventRow)
    (k : Nat × String) :
    lookupKey (applySyncResult now sid r (applySyncResult now sid r t)) k
      = lookupKey (applySyncResult now sid r t) k := by
  rw [lookupKey_applySyncResult now sid r (applySyncResult now sid r t) k]
  by_cases hdel : deletedBy sid r k
  · rw [if_pos hdel, lookupKey_applySyncResult now sid r t k, if_pos hdel]
  · rw [if_neg hdel, lookupKey_applySyncResult now sid r t k, if_neg hdel]
    apply foldl_stepKey_idem
    intro r' hr'
    exact lookupKey_key hr'

theorem upsertRow_inPlace (now : Nat) (t : List EventRow) (d : EventData)
    (hp : ∃ p ∈ t, p.key = d.key) :
    (upsertRow now t d).length = t.length ∧
    ∀ q ∈ upsertRow now t d, q.key ≠ d.key → q ∈ t := by
  have hany : t.any (fun r => decide (r.key = d.key)) = true := by
    obtain ⟨p, hp1, hp2⟩ := hp
    exact List.any_eq_true.mpr ⟨p, hp1, by simp [hp2]⟩
  unfold upsertRow
  rw [if_pos hany]
  constructor
  · exact List.length_map _ _
  · intro q hq hqk
    obtain ⟨p, hpmem, hpq⟩ := List.mem_map.mp hq
    by_cases hpk : p.key = d.key
    · exfalso
      apply hqk
      rw [← hpq, if_pos hpk]
      rw [key_updateRow, hpk]
    · rw [← hpq, if_neg hpk]
      exact hpmem

/-- C2: for every Sync Result and starting Event-table state satisfying the
`UNIQUE(source_id, external_id)` invariant, applying the result's
reconciliation (delete the deleted external ids, then upsert the event list
keyed by `(source_id, external_id)`) twice yields the same Event row set as
applying it once; the uniqueness invariant is preserved (no duplicate rows
are ever created); and upserting an already-present `(source_id,
external_id)` updates that row in place — same row count, every other row
untouched — rather than inserting a new one. -/
theorem claim_C2 (now sid : Nat) (r : SyncResult) (t : List EventRow) (h : KeysNodup t) :
    (∀ row : EventRow,
        row ∈ applySyncResult now sid r (applySyncResult now sid r t) ↔
        row ∈ applySyncResult now sid r t)
    ∧ KeysNodup (applySyncResult now sid r t)
    ∧ (∀ d : EventData, (∃ p ∈ t, p.key = d.key) →
        (upsertRow now t d).length = t.length ∧
        ∀ q ∈ upsertRow now t d, q.key ≠ d.key → q ∈ t) := by
  have h1 : KeysNodup (applySyncResult now sid r t) := keys_applySyncResult now sid r t h
  have h2 : KeysNodup (applySyncResult now sid r (applySyncResult now sid r t)) :=
    keys_applySyncResult now sid r _ h1
  refine ⟨?_, h1, fun d hp => upsertRow_inPlace now t d hp⟩
  intro row
  rw [mem_iff_lookupKey _ h2 row, mem_iff_lookupKey _ h1 row,
    lookupKey_applySyncResult_idem]

/-- Witness for C2: the reconciliation of `c2res` (one upsert over an
existing row plus one deletion) applied twice to a one-row table. -/
theorem claim_C2_witness :
    KeysNodup [c2row] ∧
    ((∀ row : EventRow,
        row ∈ applySyncResult 5 1 c2res (applySyncResult 5 1 c2res [c2row]) ↔
        row ∈ applySyncResult 5 1 c2res [c2row])
     ∧ KeysNodup (applySyncResult 5 1 c2res [c2row])
     ∧ (∀ d : EventData, (∃ p ∈ [c2row], p.key = d.key) →
        (upsertRow 5 [c2row] d).length = [c2row].length ∧
        ∀ q ∈ upsertRow 5 [c2row] d, q.key ≠ d.key → q ∈ [c2row])) :=
  ⟨by unfold KeysNodup; decide, claim_C2 5 1 c2res [c2row] (by unfold KeysNodup; decide)⟩

/-- Counterexample to C1 as stated: with one stored event for source 1, a
`fullRefresh` Sync Result whose delete statement commits and whose bulk
upsert then fails leaves the source's Events empty — not at their
pre-attempt state — while the sync fails: the delete committed without the
insert. -/
theorem claim_C1_cex :
    (syncSource 1 2 3 1 (.ok c1res) .failUpsert c1db).1.events = []
    ∧ (syncSource 1 2 3 1 (.ok c1res) .failUpsert c1db).2 = .error "upsert failed"
    ∧ c1db.events = [c1row]
    ∧ ¬ (syncSource 1 2 3 1 (.ok c1res) .failUpsert c1db).1.events = c1db.events
    ∧ ((syncSource 1 2 3 1 (.ok c1res) .failUpsert c1db).1.syncStates 1).map
        (fun s => s.last_sync_status) = some "error" := by
  refine ⟨rfl, rfl, rfl, ?_, rfl⟩
  intro h
  exact absurd h (by decide)

/-- C1 (amended): when any durable event-table write of a non-`unchanged`
reconciliation fails, that source's sync fails with the write's error and the
cursor record is marked `error`; the failing statement itself leaves no
partial effect (each delete is a single auto-committed statement, the bulk
upsert a single transaction); but statements that committed earlier in the
same reconciliation are not rolled back: a failing `fullRefresh` delete
leaves the table untouched, a failing incremental delete leaves any completed
full-refresh delete committed, and a failing bulk upsert leaves both deletes
committed — so a `fullRefresh` delete can commit without its insert, and the
source's Events are then not at their pre-attempt state. -/
theorem claim_C1 (nowP nowW nowF sid : Nat) (r : SyncResult) (wf : WriteFailure) (db : DB)
    (hr : r.unchanged = false) (hfail : stepError (.ok r) wf ≠ none) :
    (∃ m, (syncSource nowP nowW nowF sid (.ok r) wf db).2 = .error m
          ∧ stepError (.ok r) wf = some m)
    ∧ (((syncSource nowP nowW nowF sid (.ok r) wf db).1.syncStates sid).map
        (fun s => s.last_sync_status) = some "error")
    ∧ (wf = .failDeleteAll →
        (syncSource nowP nowW nowF sid (.ok r) wf db).1.events = db.events)
    ∧ (wf = .failDeleteIds →
        (syncSource nowP nowW nowF sid (.ok r) wf db).1.events
          = (if r.fullRefresh then deleteBySourceId sid db.events else db.events))
    ∧ (wf = .failUpsert →
        (syncSource nowP nowW nowF sid (.ok r) wf db).1.events
          = (if r.deleted.length > 0 then
               deleteByExternalIds sid r.deleted
                 (if r.fullRefresh then deleteBySourceId sid db.events else db.events)
             else if r.fullRefresh then deleteBySourceId sid db.events else db.events)) := by
  cases wf with
  | noFailure =>
      exact absurd (by simp [stepError, hr]) hfail
  | failDeleteAll =>
      have hfr : r.fullRefresh = true := by
        by_contra hfr
        exact hfail (by simp [stepError, hr, hfr])
      refine ⟨⟨"delete failed", ?_, ?_⟩, ?_, ?_, ?_, ?_⟩
      · simp [syncSource, runWrites, hr, hfr]
      · simp [stepError, hr, hfr]
      · simp [syncSource, runWrites, hr, hfr, updateSS, markError, SyncState_upsert, orNull]
      · intro _
        simp [syncSource, runWrites, hr, hfr]
      · intro h
        exact absurd h (by decide)
      · intro h
        exact absurd h (by decide)
  | failDeleteIds =>
      have hd : r.deleted.length > 0 := by
        by_contra hd
        exact hfail (by simp [stepError, hr, hd])
      refine ⟨⟨"delete failed", ?_, ?_⟩, ?_, ?_, ?_, ?_⟩
      · simp [syncSource, runWrites, hr, hd]
      · simp [stepError, hr, hd]
      · simp [syncSource, runWrites, hr, hd, updateSS, markError, SyncState_upsert, orNull]
      · intro h
        exact absurd h (by decide)
      · intro _
        simp [syncSource, runWrites, hr, hd]
      · intro h
        exact absurd h (by decide)
  | failUpsert =>
      have he : r.events.length > 0 := by
        by_contra he
        exact hfail (by simp [stepError, hr, he])
      refine ⟨⟨"upsert failed", ?_, ?_⟩, ?_, ?_, ?_, ?_⟩
      · simp [syncSource, runWrites, hr, he]
      · simp [stepError, hr, he]
      · simp [syncSource, runWrites, hr, he, updateSS, markError, SyncState_upsert, orNull]
      · intro h
        exact absurd h (by decide)
      · intro h
        exact absurd h (by decide)
      · intro _
        simp [syncSource, runWrites, hr, he]

/-- Witness for C1 (amended) at the `fullRefresh`-then-failing-upsert
scenario. -/
theorem claim_C1_witness :
    c1res.unchanged = false ∧ stepError (.ok c1res) .failUpsert ≠ none ∧
    ((∃ m, (syncSource 1 2 3 1 (.ok c1res) .failUpsert c1db).2 = .error m
          ∧ stepError (.ok c1res) .failUpsert = some m)
    ∧ (((syncSource 1 2 3 1 (.ok c1res) .failUpsert c1db).1.syncStates 1).map
        (fun s => s.last_sync_status) = some "error")
    ∧ (WriteFailure.failUpsert = .failDeleteAll →
        (syncSource 1 2 3 1 (.ok c1res) .failUpsert c1db).1.events = c1db.events)
    ∧ (WriteFailure.failUpsert = .failDeleteIds →
        (syncSource 1 2 3 1 (.ok c1res) .failUpsert c1db).1.events
          = (if c1res.fullRefresh then deleteBySourceId 1 c1db.events else c1db.events))
    ∧ (WriteFailure.failUpsert = .failUpsert →
        (syncSource 1 2 3 1 (.ok c1res) .failUpsert c1db).1.events
          = (if c1res.deleted.length > 0 then
               deleteByExternalIds 1 c1res.deleted
                 (if c1res.fullRefresh then deleteBySourceId 1 c1db.events else c1db.events)
             else if c1res.fullRefresh then deleteBySourceId 1 c1db.events else c1db.events))) :=
  ⟨by decide, by decide, claim_C1 1 2 3 1 c1res .failUpsert c1db (by decide) (by decide)⟩

theorem orNull_eq_self {o : Option String} (h : o ≠ some "") : orNull o = o := by
  cases o with
  | none => rfl
  | some s =>
      show (if s = "" then none else some s) = some s
      rw [if_neg]
      intro hs
      exact h (by rw [hs])

theorem orNull_idem (o : Option String) : orNull (orNull o) = orNull o := by
  cases o with
  | none => rfl
  | some s =>
      show orNull (if s = "" then none else some s) = (if s = "" then none else some s)
      by_cases hs : s = ""
      · rw [if_pos hs]
        rfl
      · rw [if_neg hs]
        show (if s = "" then none else some s) = some s
        rw [if_neg hs]

/-- C3 (amended): if the provider's sync call throws during an attempt for a
source whose cursor record held `(sync_token, etag) = C1`, then after the
attempt the record still holds `C1` (the cursor is never cleared on
failure), its status is `error`, the thrown error propagates — and, provided
the thrown error's message is non-empty, `last_error` is non-null.  (The
write site stores `message || null`, so an empty message is recorded as a
null `last_error`; see the counterexample.) -/
theorem claim_C3 (nowP nowF sid : Nat) (pre : SyncStateRow) (wf : WriteFailure) (db : DB)
    (errMsg : String) (hdb : db.syncStates sid = some pre)
    (h1 : pre.sync_token ≠ some "") (h2 : pre.etag ≠ some "") (hm : errMsg ≠ "") :
    ∃ fin : SyncStateRow,
      (syncSource nowP nowP nowF sid (.error errMsg) wf db).1.syncStates sid = some fin
      ∧ fin.sync_token = pre.sync_token
      ∧ fin.etag = pre.etag
      ∧ fin.last_sync_status = "error"
      ∧ fin.last_error ≠ none
      ∧ (syncSource nowP nowP nowF sid (.error errMsg) wf db).2 = .error errMsg := by
  refine ⟨markError nowF sid (some (markPending nowP sid (db.syncStates sid))) errMsg,
    ?_, ?_, ?_, ?_, ?_, ?_⟩
  · simp [syncSource, updateSS]
  · simp [markError, markPending, SyncState_upsert, hdb, orNull_idem, orNull_eq_self h1]
  · simp [markError, markPending, SyncState_upsert, hdb, orNull_idem, orNull_eq_self h2]
  · simp [markError, SyncState_upsert, orNull]
  · simp [markError, SyncState_upsert, orNull, hm]
  · simp [syncSource]

/-- Counterexample to C3 as stated: a provider throw whose error message is
the empty string (`new Error('')`) is stored as `last_error = null` while the
status becomes `error` — `lastError` is not non-null for every throw. -/
theorem claim_C3_cex :
    ((syncSource 1 1 2 7 (.error "") .noFailure
        { events := [], syncStates := fun j => if j = 7 then some c3pre else none }).1.syncStates 7).map
      (fun s => s.last_sync_status) = some "error"
    ∧ ((syncSource 1 1 2 7 (.error "") .noFailure
        { events := [], syncStates := fun j => if j = 7 then some c3pre else none }).1.syncStates 7).map
      (fun s => s.last_error) = some none := by
  refine ⟨rfl, rfl⟩

/-- Witness for C3 (amended) at a concrete errored attempt. -/
theorem claim_C3_witness :
    (({ events := [], syncStates := fun j => if j = 7 then some c3pre else none } : DB).syncStates 7
        = some c3pre)
    ∧ c3pre.sync_token ≠ some "" ∧ c3pre.etag ≠ some "" ∧ ("HTTP 500" : String) ≠ ""
    ∧ ∃ fin : SyncStateRow,
      (syncSource 1 1 2 7 (.error "HTTP 500") .noFailure
          { events := [], syncStates := fun j => if j = 7 then some c3pre else none }).1.syncStates 7
        = some fin
      ∧ fin.sync_token = c3pre.sync_token
      ∧ fin.etag = c3pre.etag
      ∧ fin.last_sync_status = "error"
      ∧ fin.last_error ≠ none
      ∧ (syncSource 1 1 2 7 (.error "HTTP 500") .noFailure
          { events := [], syncStates := fun j => if j = 7 then some c3pre else none }).2
        = .error "HTTP 500" :=
  ⟨by decide, by decide, by decide, by decide,
   claim_C3 1 2 7 c3pre .noFailure
     { events := [], syncStates := fun j => if j = 7 then some c3pre else none }
     "HTTP 500" (by decide) (by decide) (by decide) (by decide)⟩

/-- C8 (amended): a provider result with `unchanged = true` causes zero
Event-table writes (the events table is returned exactly as it was), the
cursor record's `events_count` after the attempt equals its pre-attempt
value, and `syncSource` resolves with `{unchanged: true}` and that count; the
record is otherwise rewritten as by `markSuccess`: `last_sync` and the stored
token/validator are set from the clock and the result's cursor state, the
status becomes `success`, and `last_error` is cleared (so status and
lastError do change when the previous attempt had failed — see the
counterexample). -/
theorem claim_C8 (nowP nowW nowF sid : Nat) (r : SyncResult) (wf : WriteFailure)
    (db : DB) (pre : SyncStateRow) (hdb : db.syncStates sid = some pre)
    (hu : r.unchanged = true) :
    (syncSource nowP nowW nowF sid (.ok r) wf db).1.events = db.events
    ∧ ((syncSource nowP nowW nowF sid (.ok r) wf db).1.syncStates sid).map
        (fun s => s.events_count) = some pre.events_count
    ∧ (syncSource nowP nowW nowF sid (.ok r) wf db).1.syncStates sid
        = some (markSuccess nowF sid pre.events_count
            r.newSyncState.sync_token r.newSyncState.etag)
    ∧ (syncSource nowP nowW nowF sid (.ok r) wf db).2
        = .ok { unchanged := true, eventsCount := pre.events_count } := by
  refine ⟨?_, ?_, ?_, ?_⟩
  · simp [syncSource, hu]
  · simp [syncSource, hu, hdb, updateSS, markPending, markSuccess, SyncState_upsert]
  · simp [syncSource, hu, hdb, updateSS, markPending, SyncState_upsert]
  · simp [syncSource, hu, hdb, markPending, SyncState_upsert]

/-- Counterexample to C8 as stated: for a source recovering from a failed
attempt, an `unchanged = true` result also touches the cursor record's
status (`error` → `success`) and `last_error` (`'boom'` → null) — not only
the last-sync timestamp and validator. -/
theorem claim_C8_cex :
    c8db.syncStates 4 = some c8pre
    ∧ c8pre.last_sync_status = "error"
    ∧ c8pre.last_error = some "boom"
    ∧ ((syncSource 1 1 2 4 (.ok c8res) .noFailure c8db).1.syncStates 4).map
        (fun s => s.last_sync_status) = some "success"
    ∧ ((syncSource 1 1 2 4 (.ok c8res) .noFailure c8db).1.syncStates 4).map
        (fun s => s.last_error) = some none :=
  ⟨rfl, rfl, rfl, rfl, rfl⟩

/-- Witness for C8 (amended) at a concrete `unchanged` sync of source 4. -/
theorem claim_C8_witness :
    c8db.syncStates 4 = some c8pre ∧ c8res.unchanged = true ∧
    ((syncSource 1 1 2 4 (.ok c8res) .noFailure c8db).1.events = c8db.events
    ∧ ((syncSource 1 1 2 4 (.ok c8res) .noFailure c8db).1.syncStates 4).map
        (fun s => s.events_count) = some c8pre.events_count
    ∧ (syncSource 1 1 2 4 (.ok c8res) .noFailure c8db).1.syncStates 4
        = some (markSuccess 2 4 c8pre.events_count
            c8res.newSyncState.sync_token c8res.newSyncState.etag)
    ∧ (syncSource 1 1 2 4 (.ok c8res) .noFailure c8db).2
        = .ok { unchanged := true, eventsCount := c8pre.events_count }) :=
  ⟨by decide, by decide, claim_C8 1 1 2 4 c8res .noFailure c8db c8pre (by decide) (by decide)⟩

/-- C5: evaluation at the cursor-expiry scenario.  The service-level fallback
is transparent — `syncEvents` with the expired token `tokC1` retries as a
token-less first sync, no error is surfaced, and the service reports
`fullSync = true` — but `GoogleCalendarProvider.sync` drops that flag: the
Sync Result it returns carries `fullRefresh = false` (the property is absent
from the returned object), contradicting the claim that the Sync Result
reports `fullRefresh = true`. -/
theorem claim_C5 :
    googleSyncEvents c5remote 2 (some "tokC1") = googleSyncEvents c5remote 1 none
    ∧ googleSyncEvents c5remote 2 (some "tokC1")
        = .ok { events := [c5gev], syncToken := some "tok2", fullSync := true }
    ∧ c5state.sync_token = some "tokC1"
    ∧ googleProviderSync 9 c5remote 2 (some c5state)
        = .ok { events := [normalizeGoogle 9 c5gev], deleted := [],
                newSyncState := { sync_token := some "tok2" },
                unchanged := false, fullRefresh := false } :=
  ⟨rfl, rfl, rfl, rfl⟩

/-- Counterexample to C6 as stated: a feed event with no native uid gets an
`external_id` built from the source id, `Date.now()` and `Math.random()` —
two runs over the identical raw input (at different clock/RNG samples) yield
different identifiers; the identifier is not content-derived. -/
theorem claim_C6_cex :
    c6noUid.uid = none
    ∧ (ICalRemote_normalizeEvent 3 1000 "0.42" c6noUid).external_id = "3-1000-0.42"
    ∧ (ICalRemote_normalizeEvent 3 1000 "0.42" c6noUid).external_id
        ≠ (ICalRemote_normalizeEvent 3 1001 "0.43" c6noUid).external_id := by
  refine ⟨rfl, rfl, ?_⟩
  decide

/-- C6 (amended): `normalizeEvent` is deterministic in `external_id` for
every event carrying a truthy native identifier — both iCal providers return
the uid itself, independent of the ambient clock and RNG, and the Google
provider always returns the raw event's `id` — but a feed event whose uid is
absent (or empty) gets a clock-and-RNG-derived identifier, so only the
native-id case is stable across re-runs. -/
theorem claim_C6 (sid t1 t2 : Nat) (r1 r2 : String) (e : ICalEvent) (u : String)
    (hu : orNull e.uid = some u) :
    (ICalRemote_normalizeEvent sid t1 r1 e).external_id = u
    ∧ (ICalLocal_normalizeEvent sid t1 r1 e).external_id = u
    ∧ (ICalRemote_normalizeEvent sid t1 r1 e).external_id
        = (ICalRemote_normalizeEvent sid t2 r2 e).external_id
    ∧ (ICalLocal_normalizeEvent sid t1 r1 e).external_id
        = (ICalLocal_normalizeEvent sid t2 r2 e).external_id
    ∧ (∀ g : GEvent, (normalizeGoogle sid g).external_id = g.id) := by
  refine ⟨?_, ?_, ?_, ?_, fun g => rfl⟩ <;>
    simp [ICalRemote_normalizeEvent, ICalLocal_normalizeEvent, hu]

/-- Witness for C6 (amended) at a concrete feed event with uid `uid-1`. -/
theorem claim_C6_witness :
    orNull c6withUid.uid = some "uid-1" ∧
    ((ICalRemote_normalizeEvent 3 1000 "0.42" c6withUid).external_id = "uid-1"
    ∧ (ICalLocal_normalizeEvent 3 1000 "0.42" c6withUid).external_id = "uid-1"
    ∧ (ICalRemote_normalizeEvent 3 1000 "0.42" c6withUid).external_id
        = (ICalRemote_normalizeEvent 3 1001 "0.43" c6withUid).external_id
    ∧ (ICalLocal_normalizeEvent 3 1000 "0.42" c6withUid).external_id
        = (ICalLocal_normalizeEvent 3 1001 "0.43" c6withUid).external_id
    ∧ (∀ g : GEvent, (normalizeGoogle 3 g).external_id = g.id)) :=
  ⟨by decide, claim_C6 3 1000 1001 "0.42" "0.43" c6withUid "uid-1" (by decide)⟩

/-- Counterexample to C9 as stated: `GoogleCalendarProvider.normalizeEvent`
passes a present but unknown status string through unmapped — the normalized
status is `definitivo`, not one of the three canonical values. -/
theorem claim_C9_cex :
    (normalizeGoogle 1 c9gev).status = some "definitivo"
    ∧ ¬((normalizeGoogle 1 c9gev).status = some "confirmed"
        ∨ (normalizeGoogle 1 c9gev).status = some "tentative"
        ∨ (normalizeGoogle 1 c9gev).status = some "cancelled") := by
  refine ⟨rfl, ?_⟩
  decide

/-- C9 (amended): the iCal providers' `mapStatus` and the Microsoft
provider's `_mapStatus` always land in {confirmed, tentative, cancelled},
with absent/unknown values defaulting to `confirmed`; the Google provider
defaults an absent (or empty) status to `confirmed` but passes any present
status string through unmapped, so its output is canonical only because the
Google API's status vocabulary is canonical. -/
theorem claim_C9 :
    (∀ s : Option String, mapStatusICal s = "confirmed"
        ∨ mapStatusICal s = "tentative" ∨ mapStatusICal s = "cancelled")
    ∧ mapStatusICal none = "confirmed"
    ∧ (∀ s : String, s.toUpper ≠ "CONFIRMED" → s.toUpper ≠ "TENTATIVE" →
        s.toUpper ≠ "CANCELLED" → mapStatusICal (some s) = "confirmed")
    ∧ (∀ e : MSEvent, msMapStatus e = "confirmed"
        ∨ msMapStatus e = "tentative" ∨ msMapStatus e = "cancelled")
    ∧ (∀ e : MSEvent, e.isCancelled = false → e.showAs = none → msMapStatus e = "confirmed")
    ∧ (∀ (sid : Nat) (g : GEvent), orNull g.status = none →
        (normalizeGoogle sid g).status = some "confirmed")
    ∧ (∀ (sid : Nat) (g : GEvent) (s : String), orNull g.status = some s →
        (normalizeGoogle sid g).status = some s) := by
  refine ⟨?_, rfl, ?_, ?_, ?_, ?_, ?_⟩
  · intro s
    cases s with
    | none => exact Or.inl rfl
    | some str =>
        simp only [mapStatusICal]
        split_ifs <;> simp
  · intro s h1 h2 h3
    simp only [mapStatusICal]
    rw [if_neg h1, if_neg h2, if_neg h3]
  · intro e
    cases hshow : e.showAs with
    | none =>
        simp only [msMapStatus, hshow]
        split_ifs <;> simp
    | some s =>
        simp only [msMapStatus, hshow]
        split_ifs <;> simp
  · intro e hc hs
    simp only [msMapStatus, hs]
    rw [if_neg (by simp [hc])]
  · intro sid g hg
    simp [normalizeGoogle, hg]
  · intro sid g s hg
    simp [normalizeGoogle, hg]

/-- Witness for C9 (amended) at concrete statuses. -/
theorem claim_C9_witness :
    (mapStatusICal (some "definitivo") = "confirmed"
      ∨ mapStatusICal (some "definitivo") = "tentative"
      ∨ mapStatusICal (some "definitivo") = "cancelled")
    ∧ (msMapStatus { id := "m", isCancelled := false, showAs := some "oof" } = "confirmed"
      ∨ msMapStatus { id := "m", isCancelled := false, showAs := some "oof" } = "tentative"
      ∨ msMapStatus { id := "m", isCancelled := false, showAs := some "oof" } = "cancelled")
    ∧ (normalizeGoogle 1 c9gev).status = some "definitivo" :=
  ⟨claim_C9.1 (some "definitivo"),
   claim_C9.2.2.2.1 { id := "m", isCancelled := false, showAs := some "oof" },
   claim_C9.2.2.2.2.2.2 1 c9gev "definitivo" (by decide)⟩

/-- C10: a source whose `type` is none of `google`, `ical_remote`,
`ical_local` makes `createProvider` throw `Unknown source type: <type>`; the
`sources` table's CHECK constraint nevertheless accepts `microsoft`, the
factory can never produce the (existing) Microsoft provider, and any
`syncSource` of such a source fails with the factory's error. -/
theorem claim_C10 (src : Source)
    (h : src.type ∉ (["google", "ical_remote", "ical_local"] : List String)) :
    createProvider src = .error ("Unknown source type: " ++ src.type)
    ∧ "microsoft" ∈ schemaSourceTypes
    ∧ (∀ (s2 : Source) (pk : ProviderKind), createProvider s2 = .ok pk
        → pk ≠ ProviderKind.microsoft)
    ∧ (∀ (cache : List (String × ProviderKind)) (psync : ProviderKind → Except String SyncResult)
        (wf : WriteFailure) (db : DB) (nP nW nF : Nat),
        cache.find? (fun p => decide (p.1 = cacheKey src)) = none →
        (syncSourceVia nP nW nF cache src psync wf db).2
          = .error ("Unknown source type: " ++ src.type)) := by
  have h1 : src.type ≠ "google" := fun he => h (by rw [he]; simp)
  have h2 : src.type ≠ "ical_remote" := fun he => h (by rw [he]; simp)
  have h3 : src.type ≠ "ical_local" := fun he => h (by rw [he]; simp)
  have hcp : createProvider src = .error ("Unknown source type: " ++ src.type) := by
    unfold createProvider
    rw [if_neg h1, if_neg h2, if_neg h3]
  refine ⟨hcp, by simp [schemaSourceTypes], ?_, ?_⟩
  · intro s2 pk hpk
    unfold createProvider at hpk
    by_cases hg : s2.type = "google"
    · rw [if_pos hg] at hpk
      injection hpk with hpe
      subst hpe
      decide
    · rw [if_neg hg] at hpk
      by_cases hir : s2.type = "ical_remote"
      · rw [if_pos hir] at hpk
        injection hpk with hpe
        subst hpe
        decide
      · rw [if_neg hir] at hpk
        by_cases hil : s2.type = "ical_local"
        · rw [if_pos hil] at hpk
          injection hpk with hpe
          subst hpe
          decide
        · rw [if_neg hil] at hpk
          exact absurd hpk (by simp)
  · intro cache psync wf db nP nW nF hfind
    have hagg : aggregatorSync cache src psync = .error ("Unknown source type: " ++ src.type) := by
      unfold aggregatorSync getProvider
      rw [hfind, hcp]
    unfold syncSourceVia
    rw [hagg]
    simp [syncSource]

/-- Witness for C10 at the `microsoft` source the schema admits. -/
theorem claim_C10_witness :
    c10src.type ∉ (["google", "ical_remote", "ical_local"] : List String) ∧
    (createProvider c10src = .error ("Unknown source type: " ++ c10src.type)
    ∧ "microsoft" ∈ schemaSourceTypes
    ∧ (∀ (s2 : Source) (pk : ProviderKind), createProvider s2 = .ok pk
        → pk ≠ ProviderKind.microsoft)
    ∧ (syncSourceVia 1 1 2 [] c10src (fun _ => .ok {}) .noFailure c10db).2
        = .error ("Unknown source type: " ++ c10src.type)) := by
  have h := claim_C10 c10src (by decide)
  exact ⟨by decide, h.1, h.2.1, h.2.2.1,
    h.2.2.2 [] (fun _ => .ok {}) .noFailure c10db 1 1 2 rfl⟩

theorem bool_eq_false_of_ne_true {b : Bool} (h : ¬ b = true) : b = false := by
  cases b
  · rfl
  · exact absurd rfl h

theorem syncSource_snd_error_iff (nP nW nF sid : Nat) (o : Except String SyncResult)
    (w : WriteFailure) (db : DB) (m : String) :
    ((syncSource nP nW nF sid o w db).2 = .error m) ↔ stepError o w = some m := by
  cases o with
  | error m0 => simp [syncSource, stepError]
  | ok r =>
      by_cases hu : r.unchanged = true
      · simp [syncSource, stepError, hu]
      · have hu' : r.unchanged = false := bool_eq_false_of_ne_true hu
        by_cases h1 : r.fullRefresh = true ∧ w = WriteFailure.failDeleteAll
        · simp [syncSource, runWrites, stepError, hu', h1]
        · by_cases h2 : r.deleted.length > 0 ∧ w = WriteFailure.failDeleteIds
          · simp [syncSource, runWrites, stepError, hu', h1, h2]
          · by_cases h3 : r.events.length > 0 ∧ w = WriteFailure.failUpsert
            · simp [syncSource, runWrites, stepError, hu', h1, h2, h3]
            · simp [syncSource, runWrites, stepError, hu', h1, h2, h3]

theorem syncSource_snd_ok (nP nW nF sid : Nat) (o : Except String SyncResult)
    (w : WriteFailure) (db : DB) (h : stepError o w = none) :
    ∃ v, (syncSource nP nW nF sid o w db).2 = .ok v := by
  cases hres : (syncSource nP nW nF sid o w db).2 with
  | ok v => exact ⟨v, rfl⟩
  | error m =>
      exfalso
      have := (syncSource_snd_error_iff nP nW nF sid o w db m).mp hres
      rw [h] at this
      exact Option.noConfusion this

theorem syncAllLoop_cons_fst (nP nW nF : Nat) (outcome : Nat → Except String SyncResult)
    (wf : Nat → WriteFailure) (s : SourceSpec) (rest : List SourceSpec) (db : DB) :
    (syncAllLoop nP nW nF outcome wf (s :: rest) db).1
      = (syncAllLoop nP nW nF outcome wf rest
          (syncSource nP nW nF s.id (outcome s.id) (wf s.id) db).1).1 := by
  cases h : (syncSource nP nW nF s.id (outcome s.id) (wf s.id) db).2 <;>
    simp [syncAllLoop, h]

theorem syncAllLoop_failed (nP nW nF : Nat) (outcome : Nat → Except String SyncResult)
    (wf : Nat → WriteFailure) :
    ∀ (srcs : List SourceSpec) (db : DB),
      (syncAllLoop nP nW nF outcome wf srcs db).2.2
        = srcs.filterMap (fun s => (stepError (outcome s.id) (wf s.id)).map
            (fun m => FailedEntry.mk s.id s.name m)) := by
  intro srcs
  induction srcs with
  | nil => intro db; rfl
  | cons s rest ih =>
      intro db
      cases hse : stepError (outcome s.id) (wf s.id) with
      | some m =>
          have hstep : (syncSource nP nW nF s.id (outcome s.id) (wf s.id) db).2 = .error m :=
            (syncSource_snd_error_iff nP nW nF s.id _ _ db m).mpr hse
          simp [syncAllLoop, hstep, ih, hse, List.filterMap_cons]
      | none =>
          obtain ⟨v, hstep⟩ := syncSource_snd_ok nP nW nF s.id _ _ db hse
          simp [syncAllLoop, hstep, ih, hse, List.filterMap_cons]

theorem syncAllLoop_success_names (nP nW nF : Nat) (outcome : Nat → Except String SyncResult)
    (wf : Nat → WriteFailure) :
    ∀ (srcs : List SourceSpec) (db : DB),
      ((syncAllLoop nP nW nF outcome wf srcs db).2.1).map (fun e => (e.sourceId, e.sourceName))
        = (srcs.filter (fun s => (stepError (outcome s.id) (wf s.id)).isNone)).map
            (fun s => (s.id, s.name)) := by
  intro srcs
  induction srcs with
  | nil => intro db; rfl
  | cons s rest ih =>
      intro db
      cases hse : stepError (outcome s.id) (wf s.id) with
      | some m =>
          have hstep : (syncSource nP nW nF s.id (outcome s.id) (wf s.id) db).2 = .error m :=
            (syncSource_snd_error_iff nP nW nF s.id _ _ db m).mpr hse
          simp [syncAllLoop, hstep, ih, hse, List.filter_cons]
      | none =>
          obtain ⟨v, hstep⟩ := syncSource_snd_ok nP nW nF s.id _ _ db hse
          simp [syncAllLoop, hstep, ih, hse, List.filter_cons]

theorem eventsOf_deleteBySourceId_other {j sid : Nat} (hne : j ≠ sid) (t : List EventRow) :
    eventsOf j (deleteBySourceId sid t) = eventsOf j t := by
  unfold eventsOf deleteBySourceId
  rw [List.filter_filter]
  have hp : (fun r : EventRow => decide (r.source_id = j) && decide (r.source_id ≠ sid))
      = (fun r : EventRow => decide (r.source_id = j)) := by
    funext r
    by_cases hr : r.source_id = j
    · simp [hr, hne]
    · simp [hr]
  rw [hp]

theorem eventsOf_deleteByExternalIds_other {j sid : Nat} (hne : j ≠ sid)
    (ids : List String) (t : List EventRow) :
    eventsOf j (deleteByExternalIds sid ids t) = eventsOf j t := by
  unfold deleteByExternalIds
  by_cases hids : ids = []
  · rw [if_pos hids]
  · rw [if_neg hids]
    unfold eventsOf
    rw [List.filter_filter]
    have hp : (fun r : EventRow => decide (r.source_id = j)
          && decide (¬(r.source_id = sid ∧ r.external_id ∈ ids)))
        = (fun r : EventRow => decide (r.source_id = j)) := by
      funext r
      by_cases hr : r.source_id = j
      · simp [hr]
        exact Or.inl hne
      · simp [hr]
    rw [hp]

theorem eventsOf_map_of_id {j : Nat} (f : EventRow → EventRow)
    (hf : ∀ r : EventRow, r.source_id = j → f r = r)
    (hs : ∀ r : EventRow, (f r).source_id = r.source_id) (t : List EventRow) :
    eventsOf j (t.map f) = eventsOf j t := by
  unfold eventsOf
  induction t with
  | nil => rfl
  | cons x t ih =>
      rw [List.map_cons]
      by_cases hx : x.source_id = j
      · rw [List.filter_cons_of_pos (by simp [hs x, hx]),
          List.filter_cons_of_pos (by simp [hx]), hf x hx, ih]
      · rw [List.filter_cons_of_neg (by simp [hs x, hx]),
          List.filter_cons_of_neg (by simp [hx]), ih]

theorem eventsOf_upsertRow_other {j sid : Nat} (hne : j ≠ sid) (now : Nat)
    (t : List EventRow) (d : EventData) (hd : d.source_id = sid) :
    eventsOf j (upsertRow now t d) = eventsOf j t := by
  unfold upsertRow
  by_cases hany : t.any (fun r => decide (r.key = d.key)) = true
  · rw [if_pos hany]
    apply eventsOf_map_of_id
    · intro r hr
      rw [if_neg]
      intro hk
      apply hne
      have h1 : r.source_id = d.source_id := congrArg Prod.fst hk
      rw [← hr, h1, hd]
    · intro r
      by_cases hk : r.key = d.key
      · rw [if_pos hk]
        rfl
      · rw [if_neg hk]
  · rw [if_neg hany]
    unfold eventsOf
    rw [List.filter_append]
    have hins : List.filter (fun r : EventRow => decide (r.source_id = j)) [insertRow now d] = [] := by
      rw [List.filter_cons_of_neg]
      · rfl
      · simp only [insertRow, decide_eq_true_eq]
        intro h
        apply hne
        rw [← h]
        exact hd
    rw [hins, List.append_nil]

theorem eventsOf_bulkUpsert_other {j sid : Nat} (hne : j ≠ sid) (now : Nat)
    (ds : List EventData) (hds : ∀ d ∈ ds, d.source_id = sid) (t : List EventRow) :
    eventsOf j (bulkUpsert now t ds) = eventsOf j t := by
  induction ds generalizing t with
  | nil => rfl
  | cons d ds ih =>
      show eventsOf j (bulkUpsert now (upsertRow now t d) ds) = _
      rw [ih (fun d' hd' => hds d' (List.mem_cons_of_mem d hd')),
        eventsOf_upsertRow_other hne now t d (hds d (List.mem_cons_self d ds))]

theorem eventsOf_applySyncResult_other {j sid : Nat} (hne : j ≠ sid) (now : Nat)
    (r : SyncResult) (hr : ∀ d ∈ r.events, d.source_id = sid) (t : List EventRow) :
    eventsOf j (applySyncResult now sid r t) = eventsOf j t := by
  unfold applySyncResult
  have h1 : eventsOf j (if r.fullRefresh then deleteBySourceId sid t else t) = eventsOf j t := by
    by_cases hfr : r.fullRefresh = true
    · rw [if_pos hfr, eventsOf_deleteBySourceId_other hne]
    · rw [if_neg hfr]
  have h2 : eventsOf j (if r.deleted.length > 0 then
        deleteByExternalIds sid r.deleted (if r.fullRefresh then deleteBySourceId sid t else t)
      else (if r.fullRefresh then deleteBySourceId sid t else t)) = eventsOf j t := by
    by_cases hdl : r.deleted.length > 0
    · rw [if_pos hdl, eventsOf_deleteByExternalIds_other hne]
      exact h1
    · rw [if_neg hdl]
      exact h1
  by_cases he : r.events.length > 0
  · rw [if_pos he, eventsOf_bulkUpsert_other hne now r.events hr]
    exact h2
  · rw [if_neg he]
    exact h2

theorem syncSource_events_ok (nP nW nF sid : Nat) (w : WriteFailure) (db : DB)
    (r : SyncResult) (hu : r.unchanged = false) (hse : stepError (.ok r) w = none) :
    (syncSource nP nW nF sid (.ok r) w db).1.events = applySyncResult nW sid r db.events := by
  have h1 : ¬(r.fullRefresh = true ∧ w = WriteFailure.failDeleteAll) := by
    intro hc
    simp [stepError, hu, hc] at hse
  have h2 : ¬(r.deleted.length > 0 ∧ w = WriteFailure.failDeleteIds) := by
    intro hc
    simp [stepError, hu, hc] at hse
  have h3 : ¬(r.events.length > 0 ∧ w = WriteFailure.failUpsert) := by
    intro hc
    simp [stepError, hu, hc] at hse
  simp [syncSource, runWrites, applySyncResult, hu, h1, h2, h3]

theorem syncSource_events_other {j sid : Nat} (hne : j ≠ sid) (nP nW nF : Nat)
    (o : Except String SyncResult) (w : WriteFailure) (db : DB)
    (hwf : ∀ r', o = .ok r' → ∀ d ∈ r'.events, d.source_id = sid) :
    eventsOf j (syncSource nP nW nF sid o w db).1.events = eventsOf j db.events := by
  cases o with
  | error m => simp [syncSource]
  | ok r =>
      have hev : ∀ d ∈ r.events, d.source_id = sid := hwf r rfl
      by_cases hu : r.unchanged = true
      · simp [syncSource, hu]
      · have hu' : r.unchanged = false := bool_eq_false_of_ne_true hu
        by_cases h1 : r.fullRefresh = true ∧ w = WriteFailure.failDeleteAll
        · simp [syncSource, runWrites, hu', h1]
        · by_cases h2 : r.deleted.length > 0 ∧ w = WriteFailure.failDeleteIds
          · have hevts : (syncSource nP nW nF sid (.ok r) w db).1.events
                = (if r.fullRefresh then deleteBySourceId sid db.events else db.events) := by
              simp [syncSource, runWrites, hu', h1, h2]
            rw [hevts]
            by_cases hfr : r.fullRefresh = true
            · rw [if_pos hfr, eventsOf_deleteBySourceId_other hne]
            · rw [if_neg hfr]
          · by_cases h3 : r.events.length > 0 ∧ w = WriteFailure.failUpsert
            · have hevts : (syncSource nP nW nF sid (.ok r) w db).1.events
                  = (if r.deleted.length > 0 then
                      deleteByExternalIds sid r.deleted
                        (if r.fullRefresh then deleteBySourceId sid db.events else db.events)
                    else if r.fullRefresh then deleteBySourceId sid db.events else db.events) := by
                simp [syncSource, runWrites, hu', h1, h2, h3]
              rw [hevts]
              have hbase : eventsOf j (if r.fullRefresh then
                  deleteBySourceId sid db.events else db.events) = eventsOf j db.events := by
                by_cases hfr : r.fullRefresh = true
                · rw [if_pos hfr, eventsOf_deleteBySourceId_other hne]
                · rw [if_neg hfr]
              by_cases hdl : r.deleted.length > 0
              · rw [if_pos hdl, eventsOf_deleteByExternalIds_other hne]
                exact hbase
              · rw [if_neg hdl]
                exact hbase
            · rw [syncSource_events_ok nP nW nF sid w db r hu'
                (by simp [stepError, hu', h1, h2, h3])]
              exact eventsOf_applySyncResult_other hne nW r hev db.events

theorem eventsOf_deleteBySourceId_self (sid : Nat) (t : List EventRow) :
    eventsOf sid (deleteBySourceId sid t) = deleteBySourceId sid (eventsOf sid t) := by
  unfold eventsOf deleteBySourceId
  rw [List.filter_filter, List.filter_filter]
  have hp1 : (fun r : EventRow => decide (r.source_id = sid) && decide (r.source_id ≠ sid))
      = (fun _ : EventRow => false) := by
    funext r
    by_cases hr : r.source_id = sid <;> simp [hr]
  have hp2 : (fun r : EventRow => decide (r.source_id ≠ sid) && decide (r.source_id = sid))
      = (fun _ : EventRow => false) := by
    funext r
    by_cases hr : r.source_id = sid <;> simp [hr]
  rw [hp1, hp2]

theorem eventsOf_deleteByExternalIds_self (sid : Nat) (ids : List String) (t : List EventRow) :
    eventsOf sid (deleteByExternalIds sid ids t) = deleteByExternalIds sid ids (eventsOf sid t) := by
  unfold deleteByExternalIds
  by_cases hids : ids = []
  · rw [if_pos hids, if_pos hids]
  · rw [if_neg hids, if_neg hids]
    unfold eventsOf
    rw [List.filter_filter, List.filter_filter]
    have hp : (fun r : EventRow => decide (r.source_id = sid)
          && decide (¬(r.source_id = sid ∧ r.external_id ∈ ids)))
        = (fun r : EventRow => decide (¬(r.source_id = sid ∧ r.external_id ∈ ids))
          && decide (r.source_id = sid)) := by
      funext r
      exact Bool.and_comm _ _
    rw [hp]

theorem eventsOf_map_comm {j : Nat} (f : EventRow → EventRow)
    (hs : ∀ r : EventRow, (f r).source_id = r.source_id) (t : List EventRow) :
    eventsOf j (t.map f) = (eventsOf j t).map f := by
  unfold eventsOf
  induction t with
  | nil => rfl
  | cons x t ih =>
      rw [List.map_cons]
      by_cases hx : x.source_id = j
      · rw [List.filter_cons_of_pos (by simp [hs x, hx]),
          List.filter_cons_of_pos (by simp [hx]), List.map_cons, ih]
      · rw [List.filter_cons_of_neg (by simp [hs x, hx]),
          List.filter_cons_of_neg (by simp [hx]), ih]

theorem any_key_eventsOf (sid : Nat) (d : EventData) (hd : d.source_id = sid)
    (t : List EventRow) :
    (eventsOf sid t).any (fun r => decide (r.key = d.key))
      = t.any (fun r => decide (r.key = d.key)) := by
  unfold eventsOf
  induction t with
  | nil => rfl
  | cons x t ih =>
      by_cases hx : x.source_id = sid
      · rw [List.filter_cons_of_pos (by simp [hx]), List.any_cons, List.any_cons, ih]
      · rw [List.filter_cons_of_neg (by simp [hx]), List.any_cons, ih]
        have hpx : decide (x.key = d.key) = false := by
          simp only [decide_eq_false_iff_not]
          intro hk
          apply hx
          have : x.source_id = d.source_id := congrArg Prod.fst hk
          rw [this, hd]
        rw [hpx, Bool.false_or]

theorem eventsOf_upsertRow_self (now sid : Nat) (t : List EventRow) (d : EventData)
    (hd : d.source_id = sid) :
    eventsOf sid (upsertRow now t d) = upsertRow now (eventsOf sid t) d := by
  unfold upsertRow
  rw [any_key_eventsOf sid d hd t]
  by_cases hany : t.any (fun r => decide (r.key = d.key)) = true
  · rw [if_pos hany, if_pos hany]
    refine eventsOf_map_comm _ ?_ t
    intro r
    by_cases hk : r.key = d.key
    · rw [if_pos hk]
      rfl
    · rw [if_neg hk]
  · rw [if_neg hany, if_neg hany]
    unfold eventsOf
    rw [List.filter_append]
    congr 1
    rw [List.filter_cons_of_pos (by simp [insertRow, hd])]
    rfl

theorem eventsOf_bulkUpsert_self (now sid : Nat) (ds : List EventData)
    (hds : ∀ d ∈ ds, d.source_id = sid) (t : List EventRow) :
    eventsOf sid (bulkUpsert now t ds) = bulkUpsert now (eventsOf sid t) ds := by
  induction ds generalizing t with
  | nil => rfl
  | cons d ds ih =>
      show eventsOf sid (bulkUpsert now (upsertRow now t d) ds) = _
      rw [ih (fun d' hd' => hds d' (List.mem_cons_of_mem d hd')),
        eventsOf_upsertRow_self now sid t d (hds d (List.mem_cons_self d ds))]
      rfl

theorem eventsOf_applySyncResult_self (now sid : Nat) (r : SyncResult)
    (hev : ∀ d ∈ r.events, d.source_id = sid) (t : List EventRow) :
    eventsOf sid (applySyncResult now sid r t) = applySyncResult now sid r (eventsOf sid t) := by
  unfold applySyncResult
  have h1 : eventsOf sid (if r.fullRefresh then deleteBySourceId sid t else t)
      = (if r.fullRefresh then deleteBySourceId sid (eventsOf sid t) else eventsOf sid t) := by
    by_cases hfr : r.fullRefresh = true
    · rw [if_pos hfr, if_pos hfr, eventsOf_deleteBySourceId_self]
    · rw [if_neg hfr, if_neg hfr]
  have h2 : eventsOf sid (if r.deleted.length > 0 then
        deleteByExternalIds sid r.deleted (if r.fullRefresh then deleteBySourceId sid t else t)
      else (if r.fullRefresh then deleteBySourceId sid t else t))
      = (if r.deleted.length > 0 then
          deleteByExternalIds sid r.deleted
            (if r.fullRefresh then deleteBySourceId sid (eventsOf sid t) else eventsOf sid t)
        else (if r.fullRefresh then deleteBySourceId sid (eventsOf sid t) else eventsOf sid t)) := by
    by_cases hdl : r.deleted.length > 0
    · rw [if_pos hdl, if_pos hdl, eventsOf_deleteByExternalIds_self, h1]
    · rw [if_neg hdl, if_neg hdl]
      exact h1
  by_cases he : r.events.length > 0
  · rw [if_pos he, if_pos he, eventsOf_bulkUpsert_self now sid r.events hev, h2]
  · rw [if_neg he, if_neg he]
    exact h2

theorem syncAllLoop_events_other {j : Nat} (nP nW nF : Nat)
    (outcome : Nat → Except String SyncResult) (wf : Nat → WriteFailure) :
    ∀ (srcs : List SourceSpec) (db : DB),
      (∀ s ∈ srcs, s.id ≠ j) →
      (∀ s ∈ srcs, ∀ r', outcome s.id = .ok r' → ∀ d ∈ r'.events, d.source_id = s.id) →
      eventsOf j (syncAllLoop nP nW nF outcome wf srcs db).1.events = eventsOf j db.events := by
  intro srcs
  induction srcs with
  | nil =>
      intro db _ _
      rfl
  | cons s rest ih =>
      intro db hne hwf
      rw [syncAllLoop_cons_fst,
        ih _ (fun s' h => hne s' (List.mem_cons_of_mem s h))
          (fun s' h => hwf s' (List.mem_cons_of_mem s h))]
      exact syncSource_events_other (Ne.symm (hne s (List.mem_cons_self s rest)))
        nP nW nF (outcome s.id) (wf s.id) db (hwf s (List.mem_cons_self s rest))

theorem syncAllLoop_events_reflect (nP nW nF : Nat)
    (outcome : Nat → Except String SyncResult) (wf : Nat → WriteFailure) :
    ∀ (srcs : List SourceSpec) (db : DB),
      (srcs.map (fun s => s.id)).Nodup →
      (∀ s ∈ srcs, ∀ r', outcome s.id = .ok r' → ∀ d ∈ r'.events, d.source_id = s.id) →
      ∀ s ∈ srcs, ∀ r', outcome s.id = .ok r' → r'.unchanged = false →
        stepError (outcome s.id) (wf s.id) = none →
        eventsOf s.id (syncAllLoop nP nW nF outcome wf srcs db).1.events
          = applySyncResult nW s.id r' (eventsOf s.id db.events) := by
  intro srcs
  induction srcs with
  | nil =>
      intro db _ _ s hs
      exact absurd hs (List.not_mem_nil s)
  | cons s0 rest ih =>
      intro db hnd hwf s hs r' ho hu hse
      have hnd' : (s0.id :: rest.map (fun s => s.id)).Nodup := by
        rw [← List.map_cons]
        exact hnd
      have hnd0 : s0.id ∉ rest.map (fun s => s.id) := (List.nodup_cons.mp hnd').1
      have hndr : (rest.map (fun s => s.id)).Nodup := (List.nodup_cons.mp hnd').2
      rcases List.mem_cons.mp hs with hs0 | hsr
      · subst hs0
        rw [syncAllLoop_cons_fst]
        have hrest : ∀ s' ∈ rest, s'.id ≠ s.id := by
          intro s' h' he
          exact hnd0 (he ▸ List.mem_map.mpr ⟨s', h', rfl⟩)
        rw [syncAllLoop_events_other nP nW nF outcome wf rest _ hrest
          (fun s' h => hwf s' (List.mem_cons_of_mem s h))]
        rw [ho] at hse
        have hev : ∀ d ∈ r'.events, d.source_id = s.id :=
          hwf s (List.mem_cons_self s rest) r' ho
        rw [ho, syncSource_events_ok nP nW nF s.id (wf s.id) db r' hu hse]
        exact eventsOf_applySyncResult_self nW s.id r' hev db.events
      · have hne : s.id ≠ s0.id := by
          intro he
          exact hnd0 (he ▸ List.mem_map.mpr ⟨s, hsr, rfl⟩)
        rw [syncAllLoop_cons_fst]
        rw [ih _ hndr (fun s' h => hwf s' (List.mem_cons_of_mem s0 h)) s hsr r' ho hu hse]
        rw [syncSource_events_other hne nP nW nF (outcome s0.id) (wf s0.id) db
          (hwf s0 (List.mem_cons_self s0 rest))]

/-- C7: in one batch, sources are processed sequentially and independently:
the batch's `failed` list is exactly the sources whose sync threw, each entry
carrying the source's id, name and the error message; every source whose
sync succeeded appears (with id and name, in order) in the `success` list;
the batch result carries the start and completion timestamps; and each
successfully synced (non-`unchanged`) source's Events in the final store are
exactly its own Sync Result's reconciliation applied to its own pre-batch
Events — one source's failure aborts nothing and no source's reconciliation
touches another source's rows. -/
theorem claim_C7 (tS tE nP nW nF : Nat) (outcome : Nat → Except String SyncResult)
    (wf : Nat → WriteFailure) (srcs : List SourceSpec) (db : DB)
    (hnd : (srcs.map (fun s => s.id)).Nodup)
    (hwf : ∀ s ∈ srcs, ∀ r', outcome s.id = .ok r' → ∀ d ∈ r'.events, d.source_id = s.id) :
    (syncAllBatch tS tE nP nW nF outcome wf srcs db).2.failed
        = srcs.filterMap (fun s => (stepError (outcome s.id) (wf s.id)).map
            (fun m => FailedEntry.mk s.id s.name m))
    ∧ ((syncAllBatch tS tE nP nW nF outcome wf srcs db).2.success).map
          (fun e => (e.sourceId, e.sourceName))
        = (srcs.filter (fun s => (stepError (outcome s.id) (wf s.id)).isNone)).map
            (fun s => (s.id, s.name))
    ∧ (syncAllBatch tS tE nP nW nF outcome wf srcs db).2.startedAt = tS
    ∧ (syncAllBatch tS tE nP nW nF outcome wf srcs db).2.completedAt = tE
    ∧ (∀ s ∈ srcs, ∀ r', outcome s.id = .ok r' → r'.unchanged = false →
        stepError (outcome s.id) (wf s.id) = none →
        eventsOf s.id (syncAllBatch tS tE nP nW nF outcome wf srcs db).1.events
          = applySyncResult nW s.id r' (eventsOf s.id db.events)) := by
  refine ⟨?_, ?_, rfl, rfl, ?_⟩
  · exact syncAllLoop_failed nP nW nF outcome wf srcs db
  · exact syncAllLoop_success_names nP nW nF outcome wf srcs db
  · exact syncAllLoop_events_reflect nP nW nF outcome wf srcs db hnd hwf

/-- Witness for C7: a two-source batch where source 1's provider throws and
source 2 succeeds with a full refresh of one event. -/
theorem claim_C7_witness :
    (syncAllBatch 10 20 1 2 3 c7outcome (fun _ => .noFailure) c7srcs c7db).2.failed
        = [{ sourceId := 1, sourceName := "uno", error := "HTTP 500: Internal Server Error" }]
    ∧ ((syncAllBatch 10 20 1 2 3 c7outcome (fun _ => .noFailure) c7srcs c7db).2.success).map
          (fun e => (e.sourceId, e.sourceName)) = [(2, "dos")]
    ∧ (syncAllBatch 10 20 1 2 3 c7outcome (fun _ => .noFailure) c7srcs c7db).2.startedAt = 10
    ∧ (syncAllBatch 10 20 1 2 3 c7outcome (fun _ => .noFailure) c7srcs c7db).2.completedAt = 20
    ∧ eventsOf 2 (syncAllBatch 10 20 1 2 3 c7outcome (fun _ => .noFailure) c7srcs c7db).1.events
        = applySyncResult 2 2 c7res (eventsOf 2 c7db.events) := by
  have hwf : ∀ s ∈ c7srcs, ∀ r', c7outcome s.id = .ok r' →
      ∀ d ∈ r'.events, d.source_id = s.id := by
    intro s hs r' hr' d hd
    fin_cases hs
    · simp [c7outcome] at hr'
    · simp [c7outcome] at hr'
      subst hr'
      simp [c7res] at hd
      subst hd
      rfl
  have h := claim_C7 10 20 1 2 3 c7outcome (fun _ => .noFailure) c7srcs c7db (by decide) hwf
  refine ⟨?_, ?_, h.2.2.1, h.2.2.2.1, ?_⟩
  · rw [h.1]
    rfl
  · rw [h.2.1]
    rfl
  · exact h.2.2.2.2 { id := 2, name := "dos" } (by decide) c7res rfl rfl rfl

theorem reachable_inv (nP nW nF : Nat) (outcome : Nat → Except String SyncResult)
    (wf : Nat → WriteFailure) :
    ∀ s : Sched, Reachable nP nW nF outcome wf s →
      (s.syncing = true ↔ s.phase ≠ BatchPhase.idle) := by
  intro s h
  induction h with
  | init db => simp
  | invoke srcs s0 hprev ih =>
      unfold invokeSyncAll
      by_cases hs : s0.syncing = true
      · rw [if_pos hs]
        exact ih
      · rw [if_neg hs]
        simp
  | step s0 hprev ih =>
      unfold stepSource
      cases hp : s0.phase with
      | idle =>
          show s0.syncing = true ↔ s0.phase ≠ BatchPhase.idle
          exact ih
      | running rem succ fail =>
          cases rem with
          | nil =>
              show s0.syncing = true ↔ s0.phase ≠ BatchPhase.idle
              exact ih
          | cons src rest =>
              rw [hp] at ih
              have hs : s0.syncing = true := ih.mpr (by simp)
              cases hr : (syncSource nP nW nF src.id (outcome src.id) (wf src.id) s0.db).2 <;>
                simp [hr, hs]
  | finish tS tE s0 hprev ih =>
      unfold finishBatch
      cases hp : s0.phase with
      | idle =>
          show s0.syncing = true ↔ s0.phase ≠ BatchPhase.idle
          exact ih
      | running rem succ fail =>
          cases rem with
          | nil => simp
          | cons src rest =>
              show s0.syncing = true ↔ s0.phase ≠ BatchPhase.idle
              exact ih
  | abort s0 hprev ih =>
      unfold abortBatch
      cases hp : s0.phase with
      | idle =>
          show s0.syncing = true ↔ s0.phase ≠ BatchPhase.idle
          exact ih
      | running rem succ fail => simp

/-- C4: in every reachable scheduler state, invoking `syncAll` while a prior
batch is unresolved (`syncing` set) returns `{skipped: true}` immediately
with the whole state — durable store included — untouched, and the skip
decision never depends on the store's contents; the engine reports busy only
while a batch is genuinely in flight (idle implies not busy, running implies
busy); and the flag is cleared whenever the batch finishes, normally
(`finishBatch`) or by an exception escaping the body (`abortBatch`) — so no
sequence of `syncAll` invocations can leave the engine permanently reporting
busy. -/
theorem claim_C4 (nP nW nF : Nat) (outcome : Nat → Except String SyncResult)
    (wf : Nat → WriteFailure) (s : Sched) (h : Reachable nP nW nF outcome wf s) :
    (s.syncing = true → ∀ srcs, invokeSyncAll srcs s = (s, .skipped))
    ∧ (s.phase = .idle → s.syncing = false)
    ∧ (∀ rem succ fail, s.phase = .running rem succ fail → s.syncing = true)
    ∧ (∀ rem succ fail, s.phase = .running rem succ fail → (abortBatch s).syncing = false)
    ∧ (∀ succ fail, s.phase = .running [] succ fail →
        ∀ tS tE, (finishBatch tS tE s).1.syncing = false)
    ∧ (∀ srcs d, (invokeSyncAll srcs { s with db := d }).2 = (invokeSyncAll srcs s).2) := by
  have inv := reachable_inv nP nW nF outcome wf s h
  refine ⟨?_, ?_, ?_, ?_, ?_, ?_⟩
  · intro hs srcs
    unfold invokeSyncAll
    rw [if_pos hs]
  · intro hp
    cases hsy : s.syncing
    · rfl
    · exact absurd hp (inv.mp hsy)
  · intro rem succ fail hp
    exact inv.mpr (by rw [hp]; simp)
  · intro rem succ fail hp
    unfold abortBatch
    rw [hp]
  · intro succ fail hp tS tE
    unfold finishBatch
    rw [hp]
  · intro srcs d
    by_cases hs : s.syncing = true <;> simp [invokeSyncAll, hs]

/-- Witness for C4: from an idle engine, one `syncAll` invocation starts a
batch; a second invocation while it is unresolved is skipped with the state
untouched; completing the batch (after its one source is processed) clears
the flag, as does an aborting exception. -/
theorem claim_C4_witness :
    (invokeSyncAll [{ id := 2, name := "dos" }] c4busy = (c4busy, .skipped))
    ∧ c4busy.syncing = true
    ∧ (abortBatch c4busy).syncing = false
    ∧ (finishBatch 10 20 (stepSource 1 1 1 (fun _ => .ok { unchanged := true })
        (fun _ => .noFailure) c4busy)).1.syncing = false := by
  have hreach : Reachable 1 1 1 (fun _ => .ok { unchanged := true })
      (fun _ => .noFailure) c4busy :=
    Reachable.invoke [{ id := 1, name := "uno" }]
      { syncing := false, db := c4db, phase := .idle } (Reachable.init c4db)
  have h := claim_C4 1 1 1 (fun _ => .ok { unchanged := true }) (fun _ => .noFailure)
    c4busy hreach
  have hreach2 : Reachable 1 1 1 (fun _ => .ok { unchanged := true }) (fun _ => .noFailure)
      (stepSource 1 1 1 (fun _ => .ok { unchanged := true }) (fun _ => .noFailure) c4busy) :=
    Reachable.step c4busy hreach
  have h2 := claim_C4 1 1 1 (fun _ => .ok { unchanged := true }) (fun _ => .noFailure)
    _ hreach2
  refine ⟨h.1 rfl [{ id := 2, name := "dos" }], rfl, ?_, ?_⟩
  · exact h.2.2.2.1 [{ id := 1, name := "uno" }] [] [] rfl
  · exact h2.2.2.2.2.1
      [{ sourceId := 1, sourceName := "uno", eventsCount := 0, unchanged := true }] [] rfl 10 20
